import Mathlib

/-!
Verification of the Kernicle capture pipeline (time-range resolution,
journal capture, session archive construction) against its specification.

The Python sources are shallowly embedded:
- strings are `List Char`;
- timezone-aware datetimes are UTC instants, `Int` microseconds since
  1970-01-01T00:00:00Z (a timezone-aware Python datetime denotes exactly one
  instant; `astimezone(timezone.utc)` preserves it);
- calendar conversion between epoch days and (year, month, day) uses the
  standard proleptic-Gregorian era algorithm;
- the filesystem is an explicit state: a list of existing directories and a
  list of (path, content) files; paths are component lists;
- subprocess invocation is an oracle in the environment giving (exit code,
  stdout, stderr) for a command, plus a flag for whether the binary exists.
-/

namespace Kernicle

/-! ### Characters and small string utilities -/

/-- Python `str.strip` whitespace (ASCII subset). -/
def isPySpace (c : Char) : Bool :=
  c = ' ' || c = '\t' || c = '\n' || c = '\r' || c = '\x0b' || c = '\x0c'

/-- ASCII lowercase conversion, as used by `str.lower` / `re.IGNORECASE`. -/
def lowerChar (c : Char) : Char :=
  if 65 ≤ c.toNat && c.toNat ≤ 90 then Char.ofNat (c.toNat + 32) else c

/-- Case-insensitive character comparison (ASCII). -/
def ciEq (a b : Char) : Bool := lowerChar a = lowerChar b

/-- ASCII decimal digit test. -/
def isAsciiDigit (c : Char) : Bool := 48 ≤ c.toNat && c.toNat ≤ 57

/-- Python `str.strip`: drop leading and trailing whitespace. -/
def strip (s : List Char) : List Char :=
  ((s.dropWhile isPySpace).reverse.dropWhile isPySpace).reverse

/-- Digit character for `n % 10`. -/
def digitChar (n : Nat) : Char := Char.ofNat (48 + n % 10)

/-- Decimal digits of a natural number, most significant first
(fuel-structured so that it reduces in the kernel). -/
def natToDigitsAux : Nat → Nat → List Char
  | 0, _ => []
  | fuel + 1, n =>
    if n < 10 then [digitChar n]
    else natToDigitsAux fuel (n / 10) ++ [digitChar (n % 10)]

/-- Decimal rendering of a natural number, as `str(n)` / `"%d" % n`. -/
def natToDigits (n : Nat) : List Char := natToDigitsAux (n + 1) n

/-- Decimal rendering of an integer, as `str(i)` for `int`. -/
def intToChars (i : Int) : List Char :=
  if i < 0 then '-' :: natToDigits i.natAbs else natToDigits i.toNat

/-- Numeric value of a digit string, as Python `int` on digits
(also the semantics of folding `int(...)` over a matched `\d+` group). -/
def digitsToNat (ds : List Char) : Nat :=
  ds.foldl (fun a c => a * 10 + (c.toNat - 48)) 0

/-- Zero-padded decimal rendering to width `w`, as `"%0wd"` in `strftime`
or f-string `{n:0wd}` formatting. -/
def padNum (w : Nat) (n : Nat) : List Char :=
  List.replicate (w - (natToDigits n).length) '0' ++ natToDigits n

/-- Split a list into its initial part and last element. -/
def splitLast (l : List Char) : Option (List Char × Char) :=
  match l.reverse with
  | [] => none
  | u :: rs => some (rs.reverse, u)

/-- Does `pat` occur as a contiguous subsequence of `s`?
Used to state what a rendered document contains. -/
def seqOccurs (pat : List Char) : List Char → Bool
  | [] => pat.isPrefixOf []
  | c :: rest => pat.isPrefixOf (c :: rest) || seqOccurs pat rest

/-- Python `str.replace(pat, rep)` for a non-empty pattern: replace every
non-overlapping occurrence, scanning left to right (fuel-structured). -/
def replaceAllAux (pat rep : List Char) : Nat → List Char → List Char
  | 0, s => s
  | fuel + 1, s =>
    match s with
    | [] => []
    | c :: rest =>
      if pat.isPrefixOf (c :: rest) then
        rep ++ replaceAllAux pat rep fuel (List.drop pat.length (c :: rest))
      else
        c :: replaceAllAux pat rep fuel rest

/-- Python `str.replace(pat, rep)` (non-empty `pat`). -/
def replaceAll (s pat rep : List Char) : List Char :=
  replaceAllAux pat rep s.length s

/-- Join lines with a newline separator, as `"\n".join(lines)`. -/
def joinLines (lines : List (List Char)) : List Char :=
  List.intercalate ['\n'] lines

/-! ### Proleptic Gregorian calendar

Python's `datetime` stores a Gregorian calendar date plus a time of day;
`timedelta` arithmetic and `astimezone` act on the underlying instant. We
model the instant directly and convert to calendar fields with the standard
era-based conversion (equivalent to `datetime.toordinal`/`fromordinal`). -/

/-- Days from 1970-01-01 of a Gregorian date (year ≥ 1, valid month/day). -/
def daysFromCivil (y m d : Nat) : Int :=
  let yy : Int := (y : Int) - (if m ≤ 2 then 1 else 0)
  let era : Int := yy.ediv 400
  let yoe : Nat := (yy - era * 400).toNat
  let doy : Nat := (153 * (if m > 2 then m - 3 else m + 9) + 2) / 5 + d - 1
  let doe : Nat := yoe * 365 + yoe / 4 - yoe / 100 + doy
  era * 146097 + (doe : Int) - 719468

/-- Gregorian calendar fields computed from an instant. -/
structure CivilDate where
  year : Int
  month : Nat
  day : Nat
deriving DecidableEq, Repr

/-- Gregorian date of a day count from 1970-01-01. -/
def civilFromDays (z : Int) : CivilDate :=
  let z' : Int := z + 719468
  let era : Int := z'.ediv 146097
  let doe : Nat := (z'.emod 146097).toNat
  let yoe : Nat := (doe - doe / 1460 + doe / 36524 - doe / 146096) / 365
  let doy : Nat := doe - (365 * yoe + yoe / 4 - yoe / 100)
  let mp : Nat := (5 * doy + 2) / 153
  let d : Nat := doy - (153 * mp + 2) / 5 + 1
  let m : Nat := if mp < 10 then mp + 3 else mp - 9
  { year := (yoe : Int) + era * 400 + (if m ≤ 2 then 1 else 0),
    month := m, day := d }

/-- Leap year test, as `calendar.isleap` / `datetime`'s internal rule. -/
def isLeapYear (y : Nat) : Bool :=
  y % 4 = 0 && (y % 100 ≠ 0 || y % 400 = 0)

/-- Days in a month of a given year. -/
def daysInMonth (y m : Nat) : Nat :=
  if m = 2 then (if isLeapYear y then 29 else 28)
  else if m = 4 || m = 6 || m = 9 || m = 11 then 30
  else 31

/-- UTC instant (microseconds since epoch) of given UTC calendar fields. -/
def utcInstant (y mo d h mi s : Nat) : Int :=
  ((daysFromCivil y mo d) * 86400 + (h * 3600 + mi * 60 + s : Nat)) * 1000000

/-- Calendar/time fields of an instant: date, second-of-day, microsecond. -/
def instantFields (t : Int) : CivilDate × Nat × Nat :=
  let sec : Int := t.ediv 1000000
  let micro : Nat := (t.emod 1000000).toNat
  let days : Int := sec.ediv 86400
  let sod : Nat := (sec.emod 86400).toNat
  (civilFromDays days, sod, micro)

/-! ### `services/timeparse.py` -/

/-- `TimeRange` from `timeparse.py`: the stripped input, the timezone-aware
UTC instant (here: microseconds since epoch), and the journalctl `--since`
argument. -/
structure TimeRange where
  range_input : List Char
  since_utc : Int
  since_arg : List Char
deriving DecidableEq, Repr

/-- `_format_journalctl_since_arg`: render a UTC instant with
`strftime("%Y-%m-%d %H:%M:%S UTC")` (sub-second part discarded). On
Linux/glibc, which this tool targets, `%Y` renders the year as a plain
decimal number with no zero padding (year 5 gives `5`), while the other
fields are zero-padded to two digits. -/
def formatJournalctlSinceArg (t : Int) : List Char :=
  let f := instantFields t
  let d := f.1
  let sod := f.2.1
  natToDigits d.year.toNat ++ '-' :: padNum 2 d.month ++ '-' :: padNum 2 d.day
    ++ ' ' :: padNum 2 (sod / 3600) ++ ':' :: padNum 2 (sod % 3600 / 60)
    ++ ':' :: padNum 2 (sod % 60) ++ ' ' :: 'U' :: 'T' :: 'C' :: []

/-- Unit characters accepted by `_REL_RE`'s `[smhd]` with `re.IGNORECASE`. -/
def isUnitChar (u : Char) : Bool :=
  u = 's' || u = 'm' || u = 'h' || u = 'd' ||
  u = 'S' || u = 'M' || u = 'H' || u = 'D'

/-- `_REL_RE.match`: `^last:(?P<value>\d+)(?P<unit>[smhd])$` with
`re.IGNORECASE`. Returns the digit group and the (raw) unit character. -/
def matchRel (s : List Char) : Option (List Char × Char) :=
  match s with
  | c1 :: c2 :: c3 :: c4 :: c5 :: rest =>
    if ciEq c1 'l' && ciEq c2 'a' && ciEq c3 's' && ciEq c4 't' && c5 = ':' then
      match splitLast rest with
      | some (ds, u) =>
        if !ds.isEmpty && ds.all isAsciiDigit && isUnitChar u then
          some (ds, u)
        else none
      | none => none
    else none
  | _ => none

/-- Seconds of one unit, as the `timedelta(seconds/minutes/hours/days=...)`
branches of `parse_range` (the final `else` raising on an unsupported unit is
unreachable after the regex match). -/
def unitSeconds (u : Char) : Nat :=
  if u = 's' then 1
  else if u = 'm' then 60
  else if u = 'h' then 3600
  else if u = 'd' then 86400
  else 0

/-- A parsed `datetime`: calendar/time fields plus an optional fixed UTC
offset in minutes (`None` = naive). -/
structure PyDatetime where
  year : Nat
  month : Nat
  day : Nat
  hour : Nat
  minute : Nat
  second : Nat
  micro : Nat
  off : Option Int
deriving DecidableEq, Repr

/-- UTC instant denoted by an offset-aware parsed datetime
(`dt.astimezone(timezone.utc)` preserves this instant). -/
def dtInstant (dt : PyDatetime) : Int :=
  ((daysFromCivil dt.year dt.month dt.day) * 86400
    + (dt.hour * 3600 + dt.minute * 60 + dt.second : Nat)
    - (dt.off.getD 0) * 60) * 1000000 + dt.micro

/-- Fractional-second digits to microseconds (right-padded to 6 digits). -/
def fracToMicro (ds : List Char) : Nat :=
  digitsToNat ds * 10 ^ (6 - ds.length)

/-- Parse an optional `±HH:MM` UTC offset terminating the string. -/
def parseIsoOffset (s : List Char) : Option (Option Int) :=
  match s with
  | [] => some none
  | sg :: h1 :: h2 :: ':' :: m1 :: m2 :: [] =>
    if (sg = '+' || sg = '-') && [h1, h2, m1, m2].all isAsciiDigit then
      let oh := digitsToNat [h1, h2]
      let om := digitsToNat [m1, m2]
      if oh ≤ 23 && om ≤ 59 then
        some (some ((if sg = '-' then -1 else 1) * ((oh : Int) * 60 + om)))
      else none
    else none
  | _ => none

/-- Parse `.f{1,6}` fractional seconds then the optional offset. -/
def parseIsoFrac (s : List Char) : Option (Nat × Option Int) :=
  match s with
  | '.' :: rest =>
    let ds := rest.takeWhile isAsciiDigit
    if 1 ≤ ds.length && ds.length ≤ 6 then
      match parseIsoOffset (rest.drop ds.length) with
      | some off => some (fracToMicro ds, off)
      | none => none
    else none
  | _ =>
    match parseIsoOffset s with
    | some off => some (0, off)
    | none => none

/-- Parse `:SS` then fraction/offset. -/
def parseIsoSeconds (s : List Char) : Option (Nat × Nat × Option Int) :=
  match s with
  | ':' :: s1 :: s2 :: rest =>
    if [s1, s2].all isAsciiDigit && digitsToNat [s1, s2] ≤ 59 then
      match parseIsoFrac rest with
      | some (mic, off) => some (digitsToNat [s1, s2], mic, off)
      | none => none
    else none
  | _ =>
    match parseIsoOffset s with
    | some off => some (0, 0, off)
    | none => none

/-- Parse `HH:MM` then seconds/fraction/offset. -/
def parseIsoTime (s : List Char) : Option (Nat × Nat × Nat × Nat × Option Int) :=
  match s with
  | h1 :: h2 :: ':' :: m1 :: m2 :: rest =>
    if [h1, h2, m1, m2].all isAsciiDigit
        && digitsToNat [h1, h2] ≤ 23 && digitsToNat [m1, m2] ≤ 59 then
      match parseIsoSeconds rest with
      | some (sec, mic, off) =>
        some (digitsToNat [h1, h2], digitsToNat [m1, m2], sec, mic, off)
      | none => none
    else none
  | _ => none

/-- `datetime.fromisoformat` (the documented
`YYYY-MM-DD[<sep>HH:MM[:SS[.ffffff]]][±HH:MM]` core; a bare literal `Z` is
not accepted here, matching the library — `parse_range` rewrites a trailing
`Z` before calling this). Field ranges are validated as the `datetime`
constructor does. -/
def fromisoformat (s : List Char) : Option PyDatetime :=
  match s with
  | y1 :: y2 :: y3 :: y4 :: '-' :: m1 :: m2 :: '-' :: d1 :: d2 :: rest =>
    if [y1, y2, y3, y4, m1, m2, d1, d2].all isAsciiDigit then
      let y := digitsToNat [y1, y2, y3, y4]
      let mo := digitsToNat [m1, m2]
      let d := digitsToNat [d1, d2]
      if 1 ≤ y && 1 ≤ mo && mo ≤ 12 && 1 ≤ d && d ≤ daysInMonth y mo then
        match rest with
        | [] => some ⟨y, mo, d, 0, 0, 0, 0, none⟩
        | _ :: timePart =>
          match parseIsoTime timePart with
          | some (h, mi, sec, mic, off) => some ⟨y, mo, d, h, mi, sec, mic, off⟩
          | none => none
      else none
    else none
  | _ => none

/-- The `if iso.endswith("Z"): iso = iso[:-1] + "+00:00"` preprocessing in
`parse_range`. -/
def zfix (v : List Char) : List Char :=
  if v.getLast? = some 'Z' then
    v.dropLast ++ ('+' :: '0' :: '0' :: ':' :: '0' :: '0' :: [])
  else v

/-- Error messages raised by `parse_range`. -/
def msgEmpty : List Char := "range must be a non-empty string".data

def msgNonPos : List Char := "relative range amount must be > 0".data

def msgBadIso : List Char :=
  "invalid range; expected relative or ISO datetime".data

def msgNaive : List Char :=
  "ISO datetime must include timezone (e.g., Z)".data

/-- `parse_range(range_value, now_utc=...)` from `timeparse.py`.
`now_utc` is an instant (timezone-aware by representation, so the
`now_utc.tzinfo is None` check cannot fire); `ValueError` becomes
`Except.error` with the message. -/
def parse_range (range_value : List Char) (now_utc : Int) :
    Except (List Char) TimeRange :=
  if range_value = [] ∨ strip range_value = [] then .error msgEmpty
  else
    let value := strip range_value
    match matchRel value with
    | some (ds, u) =>
      let amount := digitsToNat ds
      let unit := lowerChar u
      if amount = 0 then .error msgNonPos
      else
        let delta : Int := (amount * unitSeconds unit : Nat) * 1000000
        let since := now_utc - delta
        .ok ⟨value, since, formatJournalctlSinceArg since⟩
    | none =>
      match fromisoformat (zfix value) with
      | none => .error msgBadIso
      | some dt =>
        match dt.off with
        | none => .error msgNaive
        | some _ =>
          let t := dtInstant dt
          .ok ⟨value, t, formatJournalctlSinceArg t⟩

/-! ### `services/journal.py`

`subprocess.run` is modelled by an environment: whether the `journalctl`
binary can be invoked at all, and an oracle giving (returncode, stdout,
stderr) for a command line. A missing binary raises `FileNotFoundError`;
with `check=True` a non-zero exit would raise `CalledProcessError`. -/

/-- Outcome of one external process, as captured by `CompletedProcess`. -/
structure ProcOut where
  rc : Int
  out : List Char
  err : List Char

/-- Execution environment for one run. -/
structure Env where
  platformLinux : Bool
  journalctlPresent : Bool
  journalRun : List (List Char) → ProcOut
  now : Int
  home : List (List Char)

/-- Exceptions `subprocess.run` can raise before/at completion. -/
inductive SubErr where
  | fileNotFound
  | calledProcessError
deriving DecidableEq, Repr

/-- `subprocess.run(command, text=True, capture_output=True, check=...)`. -/
def subprocessRun (env : Env) (command : List (List Char)) (check : Bool) :
    Except SubErr ProcOut :=
  if env.journalctlPresent then
    let o := env.journalRun command
    if check && o.rc ≠ 0 then .error .calledProcessError else .ok o
  else .error .fileNotFound

/-- `CaptureResult` from `journal.py`. -/
structure CaptureResult where
  ok : Bool
  command : List (List Char)
  stdout : List Char
  stderr : List Char
  returncode : Int
deriving DecidableEq, Repr

/-- Python `s or ""` on a string. -/
def orEmptyStr (s : List Char) : List Char := if s.isEmpty then [] else s

/-- `_run_journalctl(args)`: invoke with `check=False` and wrap the outcome.
Only a failure to invoke the binary at all propagates. -/
def runJournalctl (env : Env) (args : List (List Char)) :
    Except SubErr CaptureResult :=
  let command := "journalctl".data :: args
  match subprocessRun env command false with
  | .error e => .error e
  | .ok proc =>
    .ok { ok := proc.rc = 0
          command := command
          stdout := orEmptyStr proc.out
          stderr := orEmptyStr proc.err
          returncode := proc.rc }

/-- `capture_kernel(since_arg=...)`. -/
def capture_kernel (env : Env) (since_arg : List Char) :
    Except SubErr CaptureResult :=
  runJournalctl env
    ["-k".data, "--since".data, since_arg, "--no-pager".data,
     "--output=short-iso".data]

/-- `capture_system(since_arg=...)`. -/
def capture_system (env : Env) (since_arg : List Char) :
    Except SubErr CaptureResult :=
  runJournalctl env
    ["--since".data, since_arg, "--no-pager".data, "--output=short-iso".data]

/-! ### Filesystem model and `services/archive.py` -/

/-- A path is a list of components. -/
abbrev FsPath := List (List Char)

/-- Filesystem state: existing directories and (file path, content) pairs. -/
structure Fs where
  dirs : List FsPath
  files : List (FsPath × List Char)
deriving DecidableEq

/-- `Path.mkdir(parents=True, exist_ok=True)`: create the target and any
missing ancestors. -/
def mkdirParentsOk (fs : Fs) (p : FsPath) : Fs :=
  { fs with dirs := p.inits.filter (fun q => decide (q ∉ fs.dirs)) ++ fs.dirs }

/-- `Path.mkdir(parents=True, exist_ok=False)`: `FileExistsError` if the
target itself already exists (raised before any parent is created, as in
`pathlib`); otherwise create missing ancestors and the target. -/
def mkdirParentsStrict (fs : Fs) (p : FsPath) : Except Unit Fs :=
  if p ∈ fs.dirs then .error () else .ok (mkdirParentsOk fs p)

/-- `Path.write_text(content)`: create or overwrite. -/
def fsWriteText (fs : Fs) (p : FsPath) (content : List Char) : Fs :=
  { fs with files := (p, content) :: fs.files.filter (fun q => q.1 ≠ p) }

/-- `SessionPaths` from `archive.py`. -/
structure SessionPaths where
  session_dir : FsPath
  sources_dir : FsPath
  report_path : FsPath
  manifest_path : FsPath
deriving DecidableEq, Repr

/-- `session_timestamp_utc()`: `now.strftime("%Y%m%dT%H%M%SZ")` (like all
`strftime` calls here, `%Y` is unpadded on Linux/glibc). -/
def sessionTimestampUtc (now : Int) : List Char :=
  let f := instantFields now
  let d := f.1
  let sod := f.2.1
  natToDigits d.year.toNat ++ padNum 2 d.month ++ padNum 2 d.day
    ++ 'T' :: padNum 2 (sod / 3600) ++ padNum 2 (sod % 3600 / 60)
    ++ padNum 2 (sod % 60) ++ ['Z']

/-- `create_session(archives_dir, timestamp=...)` with an explicit
timestamp: builds `session-<timestamp>/sources` strictly (no reuse) and
returns the paths. The filesystem is returned unchanged on failure. -/
def create_session (fs : Fs) (archives_dir : FsPath) (timestamp : List Char) :
    Except Unit SessionPaths × Fs :=
  match mkdirParentsStrict fs
      (archives_dir ++ ["session-".data ++ timestamp, "sources".data]) with
  | .error _ => (.error (), fs)
  | .ok fs1 =>
    (.ok { session_dir := archives_dir ++ ["session-".data ++ timestamp]
           sources_dir :=
             archives_dir ++ ["session-".data ++ timestamp, "sources".data]
           report_path :=
             archives_dir ++ ["session-".data ++ timestamp, "report.txt".data]
           manifest_path :=
             archives_dir ++ ["session-".data ++ timestamp,
               "manifest.json".data] }, fs1)

/-- `write_sources(sources_dir, kernel_log=..., system_log=...)`: write the
log files, returning the mapping and the new filesystem. -/
def write_sources (fs : Fs) (sources_dir : FsPath)
    (kernel_log : List Char) (system_log : Option (List Char)) :
    List (List Char × List Char) × Fs :=
  let kernelName := "journalctl-kernel.log".data
  let fs1 := fsWriteText fs (sources_dir ++ [kernelName]) kernel_log
  match system_log with
  | none => ([("journalctl_kernel".data, kernelName)], fs1)
  | some sysLog =>
    let systemName := "journalctl-system.log".data
    let fs2 := fsWriteText fs1 (sources_dir ++ [systemName]) sysLog
    ([("journalctl_kernel".data, kernelName),
      ("journalctl_system".data, systemName)], fs2)

/-- The line list built by `write_report` (before joining with newlines). -/
def reportLines (tool version range_input since_utc_iso : List Char)
    (sources_mapping : List (List Char × List Char))
    (warnings : List (List Char)) : List (List Char) :=
  [tool ++ " v".data ++ version,
   "Sprint 1 report (capture-only)".data,
   [],
   "range_input: ".data ++ range_input,
   "since_utc: ".data ++ since_utc_iso,
   []]
  ++ ["sources_written:".data]
  ++ sources_mapping.map
      (fun kv => "  - ".data ++ kv.1 ++ ": sources/".data ++ kv.2)
  ++ [[], "notes:".data,
      "  - Sprint 1 captures logs only.".data,
      "  - Panic/anomaly detection arrives in Sprint 2.".data]
  ++ (if warnings.isEmpty then []
      else
        [[], "warnings:".data]
        ++ warnings.map (fun w => "  - ".data ++ w)
        ++ [[], "permissions_hint:".data,
            "  - If journalctl capture failed, try running with sudo".data,
            "    or add your user to the systemd-journal group.".data])

/-- `write_report(...)`: the rendered report text (`"\n".join(lines)+"\n"`). -/
def writeReportText (tool version range_input since_utc_iso : List Char)
    (sources_mapping : List (List Char × List Char))
    (warnings : List (List Char)) : List Char :=
  joinLines (reportLines tool version range_input since_utc_iso
    sources_mapping warnings) ++ ['\n']

/-- `planned_features_payload()`. -/
def plannedFeaturesPayload : List (List Char × List Char) :=
  [("panic_detection".data, "Sprint 2".data),
   ("anomaly_metrics".data, "Sprint 2+".data),
   ("zip_and_git_export".data, "Sprint 3+".data),
   ("background_sessions".data, "Sprint 3+".data),
   ("encryption".data, "Sprint 4+".data)]

/-! ### `json.dumps(payload, indent=2, sort_keys=True)` for the manifest

The manifest payload only ever holds strings, booleans, string-to-string
objects and string arrays, so the JSON value type is specialised to those
shapes. `sort_keys=True` sorts every object's keys by code point. -/

/-- JSON values occurring in the Kernicle manifest. -/
inductive JVal where
  | str (s : List Char)
  | bool (b : Bool)
  | strObj (kvs : List (List Char × List Char))
  | strArr (xs : List (List Char))
deriving DecidableEq

/-- Hexadecimal digit (lowercase), as `json` uses in `\uXXXX` escapes. -/
def hexDigit (n : Nat) : Char :=
  if n % 16 < 10 then digitChar (n % 16) else Char.ofNat (87 + n % 16)

/-- JSON escape of one character (`json.dumps` default, `ensure_ascii`). -/
def jsonEscapeChar (c : Char) : List Char :=
  if c = '"' then ['\\', '"']
  else if c = '\\' then ['\\', '\\']
  else if c = '\n' then ['\\', 'n']
  else if c = '\t' then ['\\', 't']
  else if c = '\r' then ['\\', 'r']
  else if c.toNat < 32 || 127 ≤ c.toNat then
    '\\' :: 'u' :: hexDigit (c.toNat / 4096) :: hexDigit (c.toNat / 256)
      :: hexDigit (c.toNat / 16) :: hexDigit c.toNat :: []
  else [c]

/-- JSON string literal. -/
def jsonQuote (s : List Char) : List Char :=
  '"' :: s.flatMap jsonEscapeChar ++ ['"']

/-- Code-point lexicographic order on strings, as Python `str` `<=`. -/
def listCharLe : List Char → List Char → Bool
  | [], _ => true
  | _ :: _, [] => false
  | a :: s, b :: t =>
    a.toNat < b.toNat || (a.toNat = b.toNat && listCharLe s t)

/-- Sort an association list by key (`sort_keys=True`). -/
def sortByKey {α : Type} (l : List (List Char × α)) : List (List Char × α) :=
  List.insertionSort (fun x y => listCharLe x.1 y.1 = true) l

/-- `n` spaces of indentation. -/
def indentSp (n : Nat) : List Char := List.replicate n ' '

/-- Render `"key": value` items joined by `",\n"`, each on its own line. -/
def joinItems (ind : Nat) (items : List (List Char)) : List Char :=
  joinLines (items.map (fun it => indentSp ind ++ it))

/-- Render one JSON value at indentation `ind` (as `json.dumps` with
`indent=2` renders values whose container sits at `ind`). -/
def renderJVal (ind : Nat) : JVal → List Char
  | .str s => jsonQuote s
  | .bool b => if b then "true".data else "false".data
  | .strObj kvs =>
    if kvs.isEmpty then ['\x7b', '\x7d']
    else
      '\x7b' :: '\n'
        :: joinItemsSep (ind + 2)
            ((sortByKey kvs).map
              (fun kv => jsonQuote kv.1 ++ ':' :: ' ' :: jsonQuote kv.2))
        ++ '\n' :: indentSp ind ++ ['\x7d']
  | .strArr xs =>
    if xs.isEmpty then ['[', ']']
    else
      '[' :: '\n'
        :: joinItemsSep (ind + 2) (xs.map jsonQuote)
        ++ '\n' :: indentSp ind ++ [']']
where
  /-- Indent each rendered item and join with `",\n"`. -/
  joinItemsSep (ind : Nat) (items : List (List Char)) : List Char :=
    List.intercalate [',', '\n'] (items.map (fun it => indentSp ind ++ it))

/-- Render a JSON object with sorted keys at top level (indent 2). -/
def jsonDumpsSorted (payload : List (List Char × JVal)) : List Char :=
  if payload.isEmpty then ['\x7b', '\x7d']
  else
    '\x7b' :: '\n'
      :: List.intercalate [',', '\n']
          ((sortByKey payload).map
            (fun kv => indentSp 2 ++ jsonQuote kv.1 ++ ':' :: ' '
              :: renderJVal 2 kv.2))
      ++ '\n' :: ['\x7d']

/-- The `payload` dict built by `write_manifest`, in insertion order. -/
def manifestPayload (tool version range_input since_utc_iso : List Char)
    (kernel_only : Bool) (sources : List (List Char × List Char))
    (warnings errors : List (List Char)) : List (List Char × JVal) :=
  [("tool".data, .str tool),
   ("version".data, .str version),
   ("range_input".data, .str range_input),
   ("since_utc".data, .str since_utc_iso),
   ("kernel_only".data, .bool kernel_only),
   ("sources".data, .strObj sources),
   ("warnings".data, .strArr warnings),
   ("errors".data, .strArr errors),
   ("planned_features".data, .strObj plannedFeaturesPayload)]

/-- `write_manifest` content: `json.dumps(payload, indent=2, sort_keys=True)
+ "\n"` (via `write_json`). -/
def writeManifestText (tool version range_input since_utc_iso : List Char)
    (kernel_only : Bool) (sources : List (List Char × List Char))
    (warnings errors : List (List Char)) : List Char :=
  jsonDumpsSorted (manifestPayload tool version range_input since_utc_iso
    kernel_only sources warnings errors) ++ ['\n']

/-! ### `cli.py push` -/

/-- `datetime.isoformat()` of a UTC-aware datetime: the `+00:00` suffix
form, with the `.ffffff` part only when the microsecond is non-zero. -/
def pyIsoformatUtc (t : Int) : List Char :=
  let f := instantFields t
  let d := f.1
  let sod := f.2.1
  let micro := f.2.2
  padNum 4 d.year.toNat ++ '-' :: padNum 2 d.month ++ '-' :: padNum 2 d.day
    ++ 'T' :: padNum 2 (sod / 3600) ++ ':' :: padNum 2 (sod % 3600 / 60)
    ++ ':' :: padNum 2 (sod % 60)
    ++ (if micro = 0 then [] else '.' :: padNum 6 micro)
    ++ "+00:00".data

/-- `tr.since_utc.astimezone(timezone.utc).isoformat().replace("+00:00",
"Z")` from `push`. -/
def sinceIsoStr (t : Int) : List Char :=
  replaceAll (pyIsoformatUtc t) "+00:00".data "Z".data

/-- Warning recorded when the kernel capture exits non-zero. -/
def kernelWarnMsg (res : CaptureResult) : List Char :=
  "journalctl kernel capture failed (rc=".data ++ intToChars res.returncode
    ++ "). stderr: ".data
    ++ (if (strip res.stderr).isEmpty then "(empty)".data else strip res.stderr)

/-- Warning recorded when the system capture exits non-zero. -/
def systemWarnMsg (res : CaptureResult) : List Char :=
  "journalctl system capture failed (rc=".data ++ intToChars res.returncode
    ++ "). stderr: ".data
    ++ (if (strip res.stderr).isEmpty then "(empty)".data else strip res.stderr)

/-- Ways `push` terminates without a session (all surface as a raised
exception / non-zero process exit). -/
inductive PushErr where
  | exitPlatform
  | exitRange (msg : List Char)
  | fileExists
  | journalMissing
deriving DecidableEq

/-- Successful `push` outcome, for stating properties of a run. -/
structure PushOk where
  session : SessionPaths
  warnings : List (List Char)
  mapping : List (List Char × List Char)
deriving DecidableEq

/-- `get_paths().archives_dir`: `~/.kernicle/archives`. -/
def archivesDirOf (env : Env) : FsPath :=
  env.home ++ [".kernicle".data, "archives".data]

/-- Tail of `push` after all captures: accumulate warnings in capture order
and perform the three artifact writes (sources, then report, then
manifest). -/
def pushWriteArtifacts (fs2 : Fs) (session : SessionPaths) (tr : TimeRange)
    (since_iso : List Char) (kres : CaptureResult)
    (sysOpt : Option CaptureResult) (kernel_only : Bool)
    (version : List Char) : Except PushErr PushOk × Fs :=
  let warnings : List (List Char) :=
    (if kres.ok then [] else [kernelWarnMsg kres]) ++
      (match sysOpt with
       | none => []
       | some sres => if sres.ok then [] else [systemWarnMsg sres])
  let system_log := sysOpt.map (fun sres => sres.stdout)
  let wsRes := write_sources fs2 session.sources_dir kres.stdout system_log
  let mapping := wsRes.1
  let fs3 := wsRes.2
  let fs4 := fsWriteText fs3 session.report_path
    (writeReportText "kernicle".data version tr.range_input since_iso
      mapping warnings)
  let fs5 := fsWriteText fs4 session.manifest_path
    (writeManifestText "kernicle".data version tr.range_input since_iso
      kernel_only mapping warnings [])
  (.ok { session := session, warnings := warnings, mapping := mapping }, fs5)

/-- The `push` command of `cli.py`, threading the filesystem state.
Order of effects mirrors the source: platform check, `get_paths` (which
creates the archives directory permissively), `parse_range`,
`create_session`, kernel capture, optional system capture, then
sources / report / manifest writes. `env.now` stands for the wall clock
read by `parse_range` and `session_timestamp_utc`. -/
def push (env : Env) (fs0 : Fs) (rangeArg : List Char) (kernel_only : Bool)
    (version : List Char) : Except PushErr PushOk × Fs :=
  if !env.platformLinux then (.error .exitPlatform, fs0)
  else
    let fs1 := mkdirParentsOk fs0 (archivesDirOf env)
    match parse_range rangeArg env.now with
    | .error msg => (.error (.exitRange msg), fs1)
    | .ok tr =>
      let since_iso := sinceIsoStr tr.since_utc
      match create_session fs1 (archivesDirOf env) (sessionTimestampUtc env.now) with
      | (.error _, fs2) => (.error .fileExists, fs2)
      | (.ok session, fs2) =>
        match capture_kernel env tr.since_arg with
        | .error _ => (.error .journalMissing, fs2)
        | .ok kres =>
          if kernel_only then
            pushWriteArtifacts fs2 session tr since_iso kres none kernel_only version
          else
            match capture_system env tr.since_arg with
            | .error _ => (.error .journalMissing, fs2)
            | .ok sres =>
              pushWriteArtifacts fs2 session tr since_iso kres (some sres)
                kernel_only version

/-! ### Basic lemmas -/

theorem orEmptyStr_eq (s : List Char) : orEmptyStr s = s := by
  cases s <;> simp [orEmptyStr, List.isEmpty]

instance {ε α : Type} [DecidableEq ε] [DecidableEq α] :
    DecidableEq (Except ε α) := fun a b =>
  match a, b with
  | .error e1, .error e2 =>
    if h : e1 = e2 then .isTrue (by rw [h]) else .isFalse (by simp [h])
  | .error _, .ok _ => .isFalse (by simp)
  | .ok _, .error _ => .isFalse (by simp)
  | .ok v1, .ok v2 =>
    if h : v1 = v2 then .isTrue (by rw [h]) else .isFalse (by simp [h])

/-- A directory stays present when another directory is created. -/
theorem mem_mkdirParentsOk_of_mem (fs : Fs) (p q : FsPath)
    (hq : q ∈ fs.dirs) : q ∈ (mkdirParentsOk fs p).dirs := by
  simp [mkdirParentsOk, hq]

/-- Every prefix of the created path is present afterwards. -/
theorem mem_mkdirParentsOk (fs : Fs) (p q : FsPath) (t : FsPath)
    (hq : q ++ t = p) : q ∈ (mkdirParentsOk fs p).dirs := by
  by_cases hin : q ∈ fs.dirs
  · exact mem_mkdirParentsOk_of_mem fs p q hin
  · simp only [mkdirParentsOk, List.mem_append, List.mem_filter]
    exact Or.inl ⟨(List.mem_inits q p).mpr ⟨t, hq⟩, by simpa using hin⟩

/-- `fsWriteText` does not change the directory set. -/
theorem fsWriteText_dirs (fs : Fs) (p : FsPath) (c : List Char) :
    (fsWriteText fs p c).dirs = fs.dirs := rfl

/-- The file just written is present with its content. -/
theorem mem_fsWriteText_self (fs : Fs) (p : FsPath) (c : List Char) :
    (p, c) ∈ (fsWriteText fs p c).files := by
  simp [fsWriteText]

/-- Writing to a different path keeps an existing file intact. -/
theorem mem_fsWriteText_of_mem (fs : Fs) (p q : FsPath) (c d : List Char)
    (hne : q ≠ p) (hq : (q, d) ∈ fs.files) :
    (q, d) ∈ (fsWriteText fs p c).files := by
  simp only [fsWriteText, List.mem_cons, List.mem_filter]
  exact Or.inr ⟨hq, by simpa using hne⟩

/-- Concrete fixtures shared by the witnesses below. -/
def fsEmpty : Fs := ⟨[], []⟩

def oracleOk : List (List Char) → ProcOut := fun _ => ⟨0, "log line".data, []⟩

def oracleKernelFails : List (List Char) → ProcOut := fun cmd =>
  if cmd.contains ("-k".data) then ⟨1, [], "permission denied".data⟩
  else ⟨0, "log line".data, []⟩

def envPresent : Env where
  platformLinux := true
  journalctlPresent := true
  journalRun := oracleOk
  now := utcInstant 2025 12 30 12 0 0
  home := ["home".data, "user".data]

def envNoJournal : Env := { envPresent with journalctlPresent := false }

def envDegraded : Env := { envPresent with journalRun := oracleKernelFails }

/-- When the binary is present, `_run_journalctl` returns (never raises) and
wraps the oracle's outcome. -/
theorem runJournalctl_ok (env : Env) (args : List (List Char))
    (hp : env.journalctlPresent = true) :
    runJournalctl env args =
      .ok { ok := decide ((env.journalRun ("journalctl".data :: args)).rc = 0)
            command := "journalctl".data :: args
            stdout := (env.journalRun ("journalctl".data :: args)).out
            stderr := (env.journalRun ("journalctl".data :: args)).err
            returncode := (env.journalRun ("journalctl".data :: args)).rc } := by
  simp [runJournalctl, subprocessRun, hp, orEmptyStr_eq]

/-! ### C3 -/

/-- C3: `capture_kernel` and `capture_system` never raise on a non-zero exit
code of the external `journalctl` invocation: whenever the binary can be
invoked at all, each returns a `CaptureResult` (no exception) for every exit
code, whose `ok` flag is true iff the exit code is zero, and whose
stdout/stderr fields preserve the captured output even when `ok` is false. -/
theorem c3_capture_never_raises (env : Env) (q : List Char)
    (hp : env.journalctlPresent = true) :
    ∃ rk rs : CaptureResult,
      capture_kernel env q = .ok rk ∧ capture_system env q = .ok rs
        ∧ (rk.ok = true ↔ rk.returncode = 0)
        ∧ (rs.ok = true ↔ rs.returncode = 0)
        ∧ rk.stdout = (env.journalRun rk.command).out
        ∧ rk.stderr = (env.journalRun rk.command).err
        ∧ rs.stdout = (env.journalRun rs.command).out
        ∧ rs.stderr = (env.journalRun rs.command).err := by
  exact ⟨_, _, runJournalctl_ok env _ hp, runJournalctl_ok env _ hp,
    by simp, by simp, rfl, rfl, rfl, rfl⟩

/-- C3 witness. -/
theorem c3_witness :
    ∃ rk rs : CaptureResult,
      capture_kernel envDegraded ("q".data) = .ok rk
        ∧ capture_system envDegraded ("q".data) = .ok rs
        ∧ (rk.ok = true ↔ rk.returncode = 0)
        ∧ (rs.ok = true ↔ rs.returncode = 0)
        ∧ rk.stdout = (envDegraded.journalRun rk.command).out
        ∧ rk.stderr = (envDegraded.journalRun rk.command).err
        ∧ rs.stdout = (envDegraded.journalRun rs.command).out
        ∧ rs.stderr = (envDegraded.journalRun rs.command).err :=
  c3_capture_never_raises envDegraded ("q".data) (by rfl)

/-! ### C7 -/

/-- C7: for every `since_query`, the kernel capture invokes the external log
source with exactly the order-sensitive argument vector
`[-k, --since, <q>, --no-pager, --output=short-iso]`, and the all-units
capture with exactly `[--since, <q>, --no-pager, --output=short-iso]`
(the recorded command is the `journalctl` binary followed by exactly those
arguments). -/
theorem c7_invocation_args (env : Env) (q : List Char)
    (hp : env.journalctlPresent = true) :
    ∃ rk rs : CaptureResult,
      capture_kernel env q = .ok rk ∧ capture_system env q = .ok rs
        ∧ rk.command = ["journalctl".data, "-k".data, "--since".data, q,
            "--no-pager".data, "--output=short-iso".data]
        ∧ rs.command = ["journalctl".data, "--since".data, q,
            "--no-pager".data, "--output=short-iso".data] := by
  exact ⟨_, _, runJournalctl_ok env _ hp, runJournalctl_ok env _ hp, rfl, rfl⟩

/-- C7 witness. -/
theorem c7_witness :
    ∃ rk rs : CaptureResult,
      capture_kernel envPresent ("2025-12-30 11:55:00 UTC".data) = .ok rk
        ∧ capture_system envPresent ("2025-12-30 11:55:00 UTC".data) = .ok rs
        ∧ rk.command = ["journalctl".data, "-k".data, "--since".data,
            "2025-12-30 11:55:00 UTC".data,
            "--no-pager".data, "--output=short-iso".data]
        ∧ rs.command = ["journalctl".data, "--since".data,
            "2025-12-30 11:55:00 UTC".data,
            "--no-pager".data, "--output=short-iso".data] :=
  c7_invocation_args envPresent ("2025-12-30 11:55:00 UTC".data) (by rfl)

/-! ### C5 -/

/-- C5: session creation is collision-safe: after a successful
`create_session` for a given archives root and explicit timestamp, calling
`create_session` again with the same root and timestamp fails and returns
the filesystem unchanged (nothing of the first session is overwritten). -/
theorem c5_session_collision (fs fs1 : Fs) (root : FsPath) (ts : List Char)
    (sp : SessionPaths) (h : create_session fs root ts = (.ok sp, fs1)) :
    create_session fs1 root ts = (.error (), fs1) := by
  unfold create_session at h ⊢
  split at h
  · exact absurd (congrArg Prod.fst h) (by simp)
  · next fs2 heq =>
      have hfs1 : fs2 = fs1 := congrArg Prod.snd h
      subst hfs1
      unfold mkdirParentsStrict at heq
      split at heq
      · cases heq
      · next hnotin =>
          have hok : mkdirParentsOk fs
              (root ++ ["session-".data ++ ts, "sources".data]) = fs2 := by
            cases heq
            rfl
          have hmem : (root ++ ["session-".data ++ ts, "sources".data])
              ∈ fs2.dirs := by
            rw [← hok]
            exact mem_mkdirParentsOk _ _ _ [] (by simp)
          split
          · rfl
          · next fs3 heq2 =>
              unfold mkdirParentsStrict at heq2
              rw [if_pos hmem] at heq2
              cases heq2

/-- Concrete session fixture for the C5 witness. -/
def fsOne : Fs :=
  (create_session fsEmpty ["root".data] ("20251230T120000Z".data)).2

/-- C5 witness. -/
theorem c5_witness :
    create_session fsOne ["root".data] ("20251230T120000Z".data)
      = (.error (), fsOne) :=
  c5_session_collision fsEmpty fsOne ["root".data] ("20251230T120000Z".data)
    { session_dir := ["root".data, "session-20251230T120000Z".data]
      sources_dir := ["root".data, "session-20251230T120000Z".data,
        "sources".data]
      report_path := ["root".data, "session-20251230T120000Z".data,
        "report.txt".data]
      manifest_path := ["root".data, "session-20251230T120000Z".data,
        "manifest.json".data] }
    (by rfl)

/-! ### Order lemmas for `listCharLe` and sorted association lists -/

theorem char_toNat_inj {a b : Char} (h : a.toNat = b.toNat) : a = b :=
  Char.eq_of_val_eq (UInt32.ext h)

theorem listCharLe_cons_iff (a b : Char) (s t : List Char) :
    listCharLe (a :: s) (b :: t) = true ↔
      a.toNat < b.toNat ∨ (a.toNat = b.toNat ∧ listCharLe s t = true) := by
  simp [listCharLe, Bool.or_eq_true, Bool.and_eq_true, decide_eq_true_iff]

theorem listCharLe_total : ∀ a b : List Char,
    listCharLe a b = true ∨ listCharLe b a = true
  | [], _ => Or.inl rfl
  | _ :: _, [] => Or.inr rfl
  | a :: s, b :: t => by
    rcases Nat.lt_trichotomy a.toNat b.toNat with h | h | h
    · exact Or.inl ((listCharLe_cons_iff a b s t).mpr (Or.inl h))
    · rcases listCharLe_total s t with hst | hts
      · exact Or.inl ((listCharLe_cons_iff a b s t).mpr (Or.inr ⟨h, hst⟩))
      · exact Or.inr ((listCharLe_cons_iff b a t s).mpr (Or.inr ⟨h.symm, hts⟩))
    · exact Or.inr ((listCharLe_cons_iff b a t s).mpr (Or.inl h))

theorem listCharLe_trans : ∀ a b c : List Char,
    listCharLe a b = true → listCharLe b c = true → listCharLe a c = true
  | [], _, _, _, _ => rfl
  | _ :: _, [], _, hab, _ => by simp [listCharLe] at hab
  | _ :: _, _ :: _, [], _, hbc => by simp [listCharLe] at hbc
  | a :: s, b :: t, c :: u, hab, hbc => by
    rcases (listCharLe_cons_iff a b s t).mp hab with h1 | ⟨h1, h1t⟩ <;>
      rcases (listCharLe_cons_iff b c t u).mp hbc with h2 | ⟨h2, h2t⟩
    · exact (listCharLe_cons_iff a c s u).mpr (Or.inl (h1.trans h2))
    · exact (listCharLe_cons_iff a c s u).mpr (Or.inl (h2 ▸ h1))
    · exact (listCharLe_cons_iff a c s u).mpr (Or.inl (h1 ▸ h2))
    · exact (listCharLe_cons_iff a c s u).mpr
        (Or.inr ⟨h1.trans h2, listCharLe_trans s t u h1t h2t⟩)

theorem listCharLe_antisymm : ∀ a b : List Char,
    listCharLe a b = true → listCharLe b a = true → a = b
  | [], [], _, _ => rfl
  | _ :: _, [], hab, _ => by simp [listCharLe] at hab
  | [], _ :: _, _, hba => by simp [listCharLe] at hba
  | a :: s, b :: t, hab, hba => by
    rcases (listCharLe_cons_iff a b s t).mp hab with h1 | ⟨h1, h1t⟩ <;>
      rcases (listCharLe_cons_iff b a t s).mp hba with h2 | ⟨h2, h2t⟩
    · omega
    · omega
    · omega
    · rw [char_toNat_inj h1, listCharLe_antisymm s t h1t h2t]

/-- Key order on association-list entries (compare keys only). -/
def keyLe {α : Type} (x y : List Char × α) : Prop :=
  listCharLe x.1 y.1 = true

instance {α : Type} : DecidableRel (@keyLe α) := fun x y =>
  decEq (listCharLe x.1 y.1) true

instance {α : Type} : IsTotal (List Char × α) keyLe :=
  ⟨fun a b => listCharLe_total a.1 b.1⟩

instance {α : Type} : IsTrans (List Char × α) keyLe :=
  ⟨fun _ _ _ hab hbc => listCharLe_trans _ _ _ hab hbc⟩

/-- Two key-sorted association lists that are permutations of each other and
have duplicate-free keys are equal. -/
theorem eq_of_perm_sorted_nodup {α : Type} :
    ∀ {l₁ l₂ : List (List Char × α)}, l₁.Perm l₂ →
      l₁.Pairwise keyLe → l₂.Pairwise keyLe →
      (l₁.map Prod.fst).Nodup → l₁ = l₂
  | [], l₂, hperm, _, _, _ => hperm.nil_eq
  | a :: t₁, [], hperm, _, _, _ => by
    exact absurd hperm (by simp)
  | a :: t₁, b :: t₂, hperm, h₁, h₂, hnd => by
    have hab : a = b := by
      by_contra hne
      have ha2 : a ∈ t₂ := by
        have := hperm.mem_iff.mp (List.mem_cons_self a t₁)
        simpa [hne] using this
      have hb1 : b ∈ t₁ := by
        have := hperm.symm.mem_iff.mp (List.mem_cons_self b t₂)
        rcases List.mem_cons.mp this with h | h
        · exact absurd h.symm hne
        · exact h
      have hle1 : keyLe a b := (List.pairwise_cons.mp h₁).1 b hb1
      have hle2 : keyLe b a := (List.pairwise_cons.mp h₂).1 a ha2
      have hkey : a.1 = b.1 := listCharLe_antisymm _ _ hle1 hle2
      have hnd₂ : ((b :: t₂).map Prod.fst).Nodup :=
        ((hperm.map Prod.fst).nodup_iff).mp hnd
      have hmem : b.1 ∈ t₂.map Prod.fst :=
        hkey ▸ List.mem_map_of_mem Prod.fst ha2
      rw [List.map_cons] at hnd₂
      exact absurd hmem (List.nodup_cons.mp hnd₂).1
    subst hab
    have hperm' : t₁.Perm t₂ := hperm.cons_inv
    have hnd' : (t₁.map Prod.fst).Nodup := by
      rw [List.map_cons] at hnd
      exact (List.nodup_cons.mp hnd).2
    have htail := eq_of_perm_sorted_nodup hperm' (List.pairwise_cons.mp h₁).2
      (List.pairwise_cons.mp h₂).2 hnd'
    rw [htail]

/-- `sortByKey` output is key-sorted. -/
theorem sortByKey_sorted {α : Type} (l : List (List Char × α)) :
    (sortByKey l).Pairwise keyLe := by
  have h := List.sorted_insertionSort (@keyLe α) l
  simpa [sortByKey, keyLe, List.Sorted] using h

/-- `sortByKey` is a permutation of its input. -/
theorem sortByKey_perm {α : Type} (l : List (List Char × α)) :
    (sortByKey l).Perm l := by
  have h := List.perm_insertionSort (@keyLe α) l
  simpa [sortByKey, keyLe] using h

/-- Association lists with the same entries (in any insertion order) and
duplicate-free keys sort identically. -/
theorem sortByKey_eq_of_perm {α : Type} (l₁ l₂ : List (List Char × α))
    (hperm : l₁.Perm l₂) (hnd : (l₁.map Prod.fst).Nodup) :
    sortByKey l₁ = sortByKey l₂ :=
  eq_of_perm_sorted_nodup
    ((sortByKey_perm l₁).trans (hperm.trans (sortByKey_perm l₂).symm))
    (sortByKey_sorted l₁) (sortByKey_sorted l₂)
    (((sortByKey_perm l₁).map Prod.fst).nodup_iff.mpr hnd)

/-! ### Digit-character and formatting lemmas -/

theorem digitChar_toNat (n : Nat) : (digitChar n).toNat = 48 + n % 10 := by
  have h : n % 10 < 10 := Nat.mod_lt _ (by omega)
  unfold digitChar
  set k := n % 10 with hk
  interval_cases k <;> rfl

theorem digitChar_is_digit (n : Nat) :
    48 ≤ (digitChar n).toNat ∧ (digitChar n).toNat ≤ 57 := by
  rw [digitChar_toNat]
  have h : n % 10 < 10 := Nat.mod_lt _ (by omega)
  omega

theorem natToDigitsAux_digits :
    ∀ fuel n : Nat, ∀ c ∈ natToDigitsAux fuel n,
      48 ≤ c.toNat ∧ c.toNat ≤ 57 := by
  intro fuel
  induction fuel with
  | zero => intro n c hc; simp [natToDigitsAux] at hc
  | succ fuel ih =>
    intro n c hc
    unfold natToDigitsAux at hc
    by_cases hn : n < 10
    · rw [if_pos hn] at hc
      rcases List.mem_singleton.mp hc with rfl
      exact digitChar_is_digit n
    · rw [if_neg hn] at hc
      rcases List.mem_append.mp hc with h | h
      · exact ih _ c h
      · rcases List.mem_singleton.mp h with rfl
        exact digitChar_is_digit _

theorem padNum_digits (w n : Nat) :
    ∀ c ∈ padNum w n, 48 ≤ c.toNat ∧ c.toNat ≤ 57 := by
  intro c hc
  rcases List.mem_append.mp hc with h | h
  · rcases List.eq_of_mem_replicate h with rfl
    exact ⟨by decide, by decide⟩
  · exact natToDigitsAux_digits _ _ c h

/-! ### `str.replace` on a string with a single pattern occurrence -/

theorem replaceAllAux_nil (pat rep : List Char) (fuel : Nat) :
    replaceAllAux pat rep fuel [] = [] := by
  cases fuel <;> rfl

theorem replaceAllAux_single_tail (rep patTail : List Char) :
    ∀ (p : List Char) (fuel : Nat),
      (p ++ ('+' :: patTail)).length ≤ fuel → (∀ c ∈ p, c ≠ '+') →
      replaceAllAux ('+' :: patTail) rep fuel (p ++ ('+' :: patTail))
        = p ++ rep := by
  intro p
  induction p with
  | nil =>
    intro fuel hf _
    cases fuel with
    | zero => simp at hf
    | succ fuel =>
      unfold replaceAllAux
      rw [List.nil_append]
      dsimp only
      rw [if_pos (by simp [List.isPrefixOf_iff_prefix])]
      have hd : List.drop ('+' :: patTail).length ('+' :: patTail) = [] :=
        List.drop_length _
      rw [hd, replaceAllAux_nil]
      simp
  | cons c p ih =>
    intro fuel hf hnp
    cases fuel with
    | zero => simp at hf
    | succ fuel =>
      unfold replaceAllAux
      rw [List.cons_append]
      dsimp only
      have hcne : ('+' == c) = false := by
        have := hnp c (List.mem_cons_self c p)
        simp [beq_iff_eq]
        exact fun h => this h.symm
      rw [if_neg (by simp [List.isPrefixOf, hcne])]
      rw [ih fuel (by simpa using Nat.le_of_succ_le_succ hf)
        (fun d hd => hnp d (List.mem_cons_of_mem c hd))]
      simp

/-- If no character of `s` is `'+'`, the pattern `+00:00` does not occur in
`s ++ "Z"`. -/
theorem seqOccurs_plus_pat_false (patTail : List Char) :
    ∀ s : List Char, (∀ c ∈ s, c ≠ '+') →
      seqOccurs ('+' :: patTail) (s ++ ['Z']) = false := by
  intro s
  induction s with
  | nil =>
    intro _
    simp [seqOccurs, List.isPrefixOf]
  | cons c t ih =>
    intro hs
    have hcne : ('+' == c) = false := by
      have := hs c (List.mem_cons_self c t)
      simp [beq_iff_eq]
      exact fun h => this h.symm
    rw [List.cons_append]
    unfold seqOccurs
    rw [ih (fun d hd => hs d (List.mem_cons_of_mem c hd))]
    simp [List.isPrefixOf, hcne]

/-! ### The ISO rendering recorded in the manifest -/

/-- Everything of `isoformat()` before the `+00:00` offset suffix. -/
def isoPreStr (t : Int) : List Char :=
  let f := instantFields t
  let d := f.1
  let sod := f.2.1
  let micro := f.2.2
  padNum 4 d.year.toNat ++ '-' :: padNum 2 d.month ++ '-' :: padNum 2 d.day
    ++ 'T' :: padNum 2 (sod / 3600) ++ ':' :: padNum 2 (sod % 3600 / 60)
    ++ ':' :: padNum 2 (sod % 60)
    ++ (if micro = 0 then [] else '.' :: padNum 6 micro)

theorem pyIsoformatUtc_decomp (t : Int) :
    pyIsoformatUtc t = isoPreStr t ++ "+00:00".data := by
  unfold pyIsoformatUtc isoPreStr
  simp [List.append_assoc]

theorem isoPreStr_no_plus (t : Int) : ∀ c ∈ isoPreStr t, c ≠ '+' := by
  intro c hc
  unfold isoPreStr at hc
  have hplus : ('+' : Char).toNat = 43 := rfl
  simp only [List.mem_append, List.mem_cons] at hc
  rcases hc with ((((((h | h) | h) | h) | h) | h) | h)
  · have := padNum_digits _ _ c h
    intro he; rw [he, hplus] at this; omega
  · rcases h with rfl | h
    · intro he; cases he
    · have := padNum_digits _ _ c h
      intro he; rw [he, hplus] at this; omega
  · rcases h with rfl | h
    · intro he; cases he
    · have := padNum_digits _ _ c h
      intro he; rw [he, hplus] at this; omega
  · rcases h with rfl | h
    · intro he; cases he
    · have := padNum_digits _ _ c h
      intro he; rw [he, hplus] at this; omega
  · rcases h with rfl | h
    · intro he; cases he
    · have := padNum_digits _ _ c h
      intro he; rw [he, hplus] at this; omega
  · rcases h with rfl | h
    · intro he; cases he
    · have := padNum_digits _ _ c h
      intro he; rw [he, hplus] at this; omega
  · split at h
    · simp at h
    · rcases List.mem_cons.mp h with rfl | h
      · intro he; cases he
      · have := padNum_digits _ _ c h
        intro he; rw [he, hplus] at this; omega

/-- `.replace("+00:00", "Z")` turns the isoformat rendering into the
`Z`-suffixed form. -/
theorem sinceIsoStr_decomp (t : Int) :
    sinceIsoStr t = isoPreStr t ++ ['Z'] := by
  unfold sinceIsoStr replaceAll
  rw [pyIsoformatUtc_decomp]
  exact replaceAllAux_single_tail _ _ (isoPreStr t) _ (Nat.le_refl _)
    (isoPreStr_no_plus t)

/-! ### C8 -/

/-- `sort_keys=True` puts the manifest's nine top-level keys in code-point
order, whatever the values are. -/
theorem manifestPayload_sorted (tool version ri si : List Char) (ko : Bool)
    (src : List (List Char × List Char)) (w e : List (List Char)) :
    sortByKey (manifestPayload tool version ri si ko src w e) =
      [("errors".data, .strArr e),
       ("kernel_only".data, .bool ko),
       ("planned_features".data, .strObj plannedFeaturesPayload),
       ("range_input".data, .str ri),
       ("since_utc".data, .str si),
       ("sources".data, .strObj src),
       ("tool".data, .str tool),
       ("version".data, .str version),
       ("warnings".data, .strArr w)] := rfl

/-- Rendering a string-object depends only on its sorted entry list. -/
theorem renderJVal_strObj_congr (ind : Nat)
    (kvs₁ kvs₂ : List (List Char × List Char))
    (hsort : sortByKey kvs₁ = sortByKey kvs₂)
    (hemp : kvs₁.isEmpty = kvs₂.isEmpty) :
    renderJVal ind (.strObj kvs₁) = renderJVal ind (.strObj kvs₂) := by
  unfold renderJVal
  dsimp only
  rw [hsort, hemp]

/-- C8: `write_manifest` is deterministic — identical input state (the
source mapping compared as a mapping, i.e. up to insertion order, with
duplicate-free keys) yields byte-identical manifest text — its key order is
sorted, and the recorded resolved instant is `Z`-suffixed and never
contains `+00:00`. -/
theorem c8_manifest_deterministic (tool version ri : List Char) (t : Int)
    (ko : Bool) (src₁ src₂ : List (List Char × List Char))
    (w e : List (List Char))
    (hperm : src₁.Perm src₂) (hnd : (src₁.map Prod.fst).Nodup) :
    writeManifestText tool version ri (sinceIsoStr t) ko src₁ w e
        = writeManifestText tool version ri (sinceIsoStr t) ko src₂ w e
      ∧ ((sortByKey (manifestPayload tool version ri (sinceIsoStr t) ko src₁
          w e)).map Prod.fst).Pairwise (fun a b => listCharLe a b = true)
      ∧ (sinceIsoStr t).getLast? = some 'Z'
      ∧ seqOccurs ("+00:00".data) (sinceIsoStr t) = false := by
  refine ⟨?_, ?_, ?_, ?_⟩
  · have hsort : sortByKey src₁ = sortByKey src₂ :=
      sortByKey_eq_of_perm src₁ src₂ hperm hnd
    have hemp : src₁.isEmpty = src₂.isEmpty := by
      cases h1 : src₁ <;> cases h2 : src₂
      · rfl
      · exact absurd (h1 ▸ h2 ▸ hperm) (by simp)
      · exact absurd (h1 ▸ h2 ▸ hperm).symm (by simp)
      · rfl
    unfold writeManifestText jsonDumpsSorted
    rw [manifestPayload_sorted, manifestPayload_sorted]
    simp only [List.map, List.isEmpty]
    rw [renderJVal_strObj_congr 2 src₁ src₂ hsort hemp]
    rfl
  · rw [manifestPayload_sorted]
    simp only [List.map]
    decide
  · rw [sinceIsoStr_decomp]
    exact List.getLast?_concat _
  · rw [sinceIsoStr_decomp]
    exact seqOccurs_plus_pat_false _ _ (isoPreStr_no_plus t)

/-- C8 witness. -/
theorem c8_witness :
    writeManifestText ("kernicle".data) ("0.1.0".data) ("last:5m".data)
        (sinceIsoStr (utcInstant 2025 12 30 11 55 0)) false
        [("journalctl_kernel".data, "journalctl-kernel.log".data),
         ("journalctl_system".data, "journalctl-system.log".data)]
        [] []
      = writeManifestText ("kernicle".data) ("0.1.0".data) ("last:5m".data)
        (sinceIsoStr (utcInstant 2025 12 30 11 55 0)) false
        [("journalctl_system".data, "journalctl-system.log".data),
         ("journalctl_kernel".data, "journalctl-kernel.log".data)]
        [] []
      ∧ ((sortByKey (manifestPayload ("kernicle".data) ("0.1.0".data)
          ("last:5m".data) (sinceIsoStr (utcInstant 2025 12 30 11 55 0)) false
          [("journalctl_kernel".data, "journalctl-kernel.log".data),
           ("journalctl_system".data, "journalctl-system.log".data)]
          [] [])).map Prod.fst).Pairwise (fun a b => listCharLe a b = true)
      ∧ (sinceIsoStr (utcInstant 2025 12 30 11 55 0)).getLast? = some 'Z'
      ∧ seqOccurs ("+00:00".data)
          (sinceIsoStr (utcInstant 2025 12 30 11 55 0)) = false :=
  c8_manifest_deterministic ("kernicle".data) ("0.1.0".data) ("last:5m".data)
    (utcInstant 2025 12 30 11 55 0) false
    [("journalctl_kernel".data, "journalctl-kernel.log".data),
     ("journalctl_system".data, "journalctl-system.log".data)]
    [("journalctl_system".data, "journalctl-system.log".data),
     ("journalctl_kernel".data, "journalctl-kernel.log".data)]
    [] [] (List.Perm.swap _ _ _) (by decide)

/-! ### C9 -/

/-- The session directory a run started at `env.now` will create. -/
def sessionDirFor (env : Env) : FsPath :=
  archivesDirOf env ++ ["session-".data ++ sessionTimestampUtc env.now]

/-- The sources directory a run started at `env.now` will create. -/
def sourcesDirFor (env : Env) : FsPath :=
  archivesDirOf env
    ++ ["session-".data ++ sessionTimestampUtc env.now, "sources".data]

/-- The report path a run started at `env.now` will use. -/
def reportPathFor (env : Env) : FsPath :=
  archivesDirOf env
    ++ ["session-".data ++ sessionTimestampUtc env.now, "report.txt".data]

/-- The manifest path a run started at `env.now` will use. -/
def manifestPathFor (env : Env) : FsPath :=
  archivesDirOf env
    ++ ["session-".data ++ sessionTimestampUtc env.now, "manifest.json".data]

/-- `create_session` on a fresh target succeeds and creates the tree. -/
theorem create_session_success (fs : Fs) (root : FsPath) (ts : List Char)
    (hnotin : (root ++ ["session-".data ++ ts, "sources".data]) ∉ fs.dirs) :
    create_session fs root ts =
      (.ok { session_dir := root ++ ["session-".data ++ ts]
             sources_dir := root ++ ["session-".data ++ ts, "sources".data]
             report_path :=
               root ++ ["session-".data ++ ts, "report.txt".data]
             manifest_path :=
               root ++ ["session-".data ++ ts, "manifest.json".data] },
       mkdirParentsOk fs (root ++ ["session-".data ++ ts, "sources".data])) := by
  unfold create_session mkdirParentsStrict
  rw [if_neg hnotin]

/-- `_run_journalctl` raises `FileNotFoundError` iff the binary is absent. -/
theorem runJournalctl_err (env : Env) (args : List (List Char))
    (hp : env.journalctlPresent = false) :
    runJournalctl env args = .error .fileNotFound := by
  simp [runJournalctl, subprocessRun, hp]

/-- C9 counterexample: on a Linux host with the retrieval mechanism absent,
`push` starting from an empty filesystem terminates with the propagated
invocation error, but the session directory (and the whole archives tree)
has already been created by then — the error is NOT detected before
filesystem mutation as the claim requires. -/
theorem c9_counterexample :
    (push envNoJournal fsEmpty ("last:5m".data) true ("0.1.0".data)).1
        = .error .journalMissing
      ∧ sessionDirFor envNoJournal
          ∈ (push envNoJournal fsEmpty ("last:5m".data) true ("0.1.0".data)).2.dirs
      ∧ sourcesDirFor envNoJournal
          ∈ (push envNoJournal fsEmpty ("last:5m".data) true ("0.1.0".data)).2.dirs
      ∧ fsEmpty.dirs = [] ∧ fsEmpty.files = [] := by
  refine ⟨by decide, by decide, by decide, rfl, rfl⟩

/-- C9 amended: the wrong-platform error is detected before any filesystem
mutation (the filesystem is returned untouched), while a missing retrieval
mechanism is fatal but is detected only at the first capture invocation,
after the archives directory and the session directory tree have been
created. -/
theorem c9_amended (env : Env) (fs : Fs) (range : List Char) (ko : Bool)
    (v : List Char) (tr : TimeRange)
    (hplat : env.platformLinux = true)
    (hnojc : env.journalctlPresent = false)
    (hparse : parse_range range env.now = .ok tr)
    (hfresh : sourcesDirFor env
      ∉ (mkdirParentsOk fs (archivesDirOf env)).dirs) :
    (∀ env2 : Env, ∀ fs2 range2 ko2 v2, env2.platformLinux = false →
        push env2 fs2 range2 ko2 v2 = (.error .exitPlatform, fs2))
      ∧ ∃ fsOut, push env fs range ko v = (.error .journalMissing, fsOut)
          ∧ sessionDirFor env ∈ fsOut.dirs
          ∧ sourcesDirFor env ∈ fsOut.dirs := by
  constructor
  · intro env2 fs2 range2 ko2 v2 hp2
    unfold push
    rw [hp2]
    rfl
  · refine ⟨mkdirParentsOk (mkdirParentsOk fs (archivesDirOf env))
      (sourcesDirFor env), ?_, ?_, ?_⟩
    · unfold push
      rw [hplat]
      simp only [Bool.not_true, Bool.false_eq_true, if_false, hparse]
      rw [create_session_success _ _ _ hfresh]
      have hck : capture_kernel env tr.since_arg = .error .fileNotFound :=
        runJournalctl_err env _ hnojc
      rw [hck]
      rfl
    · exact mem_mkdirParentsOk _ _ _ ["sources".data] (by
        simp [sessionDirFor, sourcesDirFor])
    · exact mem_mkdirParentsOk _ _ _ [] (by simp)

/-- C9 amended witness. -/
theorem c9_amended_witness :
    (∀ env2 : Env, ∀ fs2 range2 ko2 v2, env2.platformLinux = false →
        push env2 fs2 range2 ko2 v2 = (.error .exitPlatform, fs2))
      ∧ ∃ fsOut, push envNoJournal fsEmpty ("last:5m".data) true ("0.1.0".data)
            = (.error .journalMissing, fsOut)
          ∧ sessionDirFor envNoJournal ∈ fsOut.dirs
          ∧ sourcesDirFor envNoJournal ∈ fsOut.dirs :=
  c9_amended envNoJournal fsEmpty ("last:5m".data) true ("0.1.0".data)
    { range_input := "last:5m".data
      since_utc := utcInstant 2025 12 30 11 55 0
      since_arg := "2025-12-30 11:55:00 UTC".data }
    (by rfl) (by rfl) (by decide) (by decide)


/-! ### C4 -/

/-- First fixed permissions-remediation hint line of the report. -/
def permHint1 : List Char :=
  "  - If journalctl capture failed, try running with sudo".data

/-- Second fixed permissions-remediation hint line of the report. -/
def permHint2 : List Char :=
  "    or add your user to the systemd-journal group.".data

/-- With a non-empty warnings list, the report is the base report followed
by the warnings section followed by the fixed permissions hint. -/
theorem reportLines_with_warnings (version ri si : List Char)
    (m : List (List Char × List Char)) (w : List (List Char)) (hw : w ≠ []) :
    reportLines ("kernicle".data) version ri si m w
      = reportLines ("kernicle".data) version ri si m []
        ++ ([[], "warnings:".data] ++ w.map (fun x => "  - ".data ++ x)
            ++ [[], "permissions_hint:".data, permHint1, permHint2]) := by
  unfold reportLines
  have hwe : w.isEmpty = false := by
    cases w
    · exact absurd rfl hw
    · rfl
  rw [hwe]
  simp [permHint1, permHint2, List.append_assoc]

/-- With an empty warnings list, the report has no warnings section and no
permissions hint. -/
theorem reportLines_no_section (version ri si : List Char)
    (m : List (List Char × List Char)) :
    ("warnings:".data) ∉ reportLines ("kernicle".data) version ri si m []
      ∧ ("permissions_hint:".data)
          ∉ reportLines ("kernicle".data) version ri si m [] := by
  constructor <;>
  · intro h
    unfold reportLines at h
    simp only [List.isEmpty_nil, if_true, List.append_nil, List.mem_append,
      List.mem_cons, List.mem_map, List.mem_singleton] at h
    rcases h with ((h | h | h | h | h | h | h) | h | ⟨kv, _, h⟩ | h) <;>
      simp_all

/-- Outcome of one `journalctl -k` invocation, as wrapped by the adapter. -/
def kernelCaptureOf (env : Env) (q : List Char) : CaptureResult :=
  { ok := decide ((env.journalRun ("journalctl".data
        :: ["-k".data, "--since".data, q, "--no-pager".data,
          "--output=short-iso".data])).rc = 0)
    command := "journalctl".data :: ["-k".data, "--since".data, q,
      "--no-pager".data, "--output=short-iso".data]
    stdout := (env.journalRun ("journalctl".data :: ["-k".data,
      "--since".data, q, "--no-pager".data, "--output=short-iso".data])).out
    stderr := (env.journalRun ("journalctl".data :: ["-k".data,
      "--since".data, q, "--no-pager".data, "--output=short-iso".data])).err
    returncode := (env.journalRun ("journalctl".data :: ["-k".data,
      "--since".data, q, "--no-pager".data, "--output=short-iso".data])).rc }

/-- Outcome of one all-units `journalctl` invocation. -/
def systemCaptureOf (env : Env) (q : List Char) : CaptureResult :=
  { ok := decide ((env.journalRun ("journalctl".data
        :: ["--since".data, q, "--no-pager".data,
          "--output=short-iso".data])).rc = 0)
    command := "journalctl".data :: ["--since".data, q,
      "--no-pager".data, "--output=short-iso".data]
    stdout := (env.journalRun ("journalctl".data :: ["--since".data, q,
      "--no-pager".data, "--output=short-iso".data])).out
    stderr := (env.journalRun ("journalctl".data :: ["--since".data, q,
      "--no-pager".data, "--output=short-iso".data])).err
    returncode := (env.journalRun ("journalctl".data :: ["--since".data, q,
      "--no-pager".data, "--output=short-iso".data])).rc }

theorem capture_kernel_eq (env : Env) (q : List Char)
    (hp : env.journalctlPresent = true) :
    capture_kernel env q = .ok (kernelCaptureOf env q) :=
  runJournalctl_ok env _ hp

theorem capture_system_eq (env : Env) (q : List Char)
    (hp : env.journalctlPresent = true) :
    capture_system env q = .ok (systemCaptureOf env q) :=
  runJournalctl_ok env _ hp

/-- What the artifact-writing tail of `push` produces: an `ok` outcome, the
warnings accumulated in capture order, the mapping in capture order, and all
artifact files present in the final filesystem with their full rendered
contents. -/
theorem pushWriteArtifacts_spec (fs2 : Fs) (sp : SessionPaths)
    (tr : TimeRange) (si : List Char) (kres : CaptureResult)
    (sysOpt : Option CaptureResult) (ko : Bool) (v : List Char)
    (hne1 : sp.sources_dir ++ ["journalctl-kernel.log".data] ≠
      sp.sources_dir ++ ["journalctl-system.log".data])
    (hne2 : sp.sources_dir ++ ["journalctl-kernel.log".data] ≠ sp.report_path)
    (hne3 : sp.sources_dir ++ ["journalctl-kernel.log".data] ≠ sp.manifest_path)
    (hne4 : sp.sources_dir ++ ["journalctl-system.log".data] ≠ sp.report_path)
    (hne5 : sp.sources_dir ++ ["journalctl-system.log".data] ≠ sp.manifest_path)
    (hne6 : sp.report_path ≠ sp.manifest_path) :
    ∃ res fsOut,
      pushWriteArtifacts fs2 sp tr si kres sysOpt ko v = (.ok res, fsOut)
        ∧ res.session = sp
        ∧ res.warnings = (if kres.ok then [] else [kernelWarnMsg kres])
            ++ (match sysOpt with
                | none => []
                | some s => if s.ok then [] else [systemWarnMsg s])
        ∧ res.mapping = (match sysOpt with
            | none => [("journalctl_kernel".data, "journalctl-kernel.log".data)]
            | some _ => [("journalctl_kernel".data, "journalctl-kernel.log".data),
                ("journalctl_system".data, "journalctl-system.log".data)])
        ∧ (sp.sources_dir ++ ["journalctl-kernel.log".data], kres.stdout)
            ∈ fsOut.files
        ∧ (match sysOpt with
            | none => True
            | some s => (sp.sources_dir ++ ["journalctl-system.log".data],
                s.stdout) ∈ fsOut.files)
        ∧ (sp.report_path, writeReportText ("kernicle".data) v tr.range_input
            si res.mapping res.warnings) ∈ fsOut.files
        ∧ (sp.manifest_path, writeManifestText ("kernicle".data) v
            tr.range_input si ko res.mapping res.warnings []) ∈ fsOut.files := by
  cases sysOpt with
  | none =>
    refine ⟨_, _, rfl, rfl, rfl, rfl, ?_, trivial, ?_, ?_⟩
    · exact mem_fsWriteText_of_mem _ _ _ _ _ hne3
        (mem_fsWriteText_of_mem _ _ _ _ _ hne2 (mem_fsWriteText_self _ _ _))
    · exact mem_fsWriteText_of_mem _ _ _ _ _ hne6
        (mem_fsWriteText_self _ _ _)
    · exact mem_fsWriteText_self _ _ _
  | some s =>
    refine ⟨_, _, rfl, rfl, rfl, rfl, ?_, ?_, ?_, ?_⟩
    · exact mem_fsWriteText_of_mem _ _ _ _ _ hne3
        (mem_fsWriteText_of_mem _ _ _ _ _ hne2
          (mem_fsWriteText_of_mem _ _ _ _ _ hne1
            (mem_fsWriteText_self _ _ _)))
    · exact mem_fsWriteText_of_mem _ _ _ _ _ hne5
        (mem_fsWriteText_of_mem _ _ _ _ _ hne4 (mem_fsWriteText_self _ _ _))
    · exact mem_fsWriteText_of_mem _ _ _ _ _ hne6
        (mem_fsWriteText_self _ _ _)
    · exact mem_fsWriteText_self _ _ _

/-- C4: whenever some external capture invocation exits non-zero (and the
run is otherwise able to proceed: Linux, `journalctl` invocable, range
parsed, fresh session), the run still completes successfully and produces a
complete `manifest.json` and `report.txt`; the warnings list recorded in
both artifacts is non-empty; the captured source file exists under
`sources/` with whatever output was returned (possibly empty); and the
report consists of the base report followed by a warnings section followed
by the fixed permissions-remediation hint — a section absent from the base
report (so present exactly when warnings are non-empty). -/
theorem c4_degraded_run (env : Env) (fs : Fs) (range : List Char) (ko : Bool)
    (v : List Char) (tr : TimeRange)
    (hplat : env.platformLinux = true)
    (hjc : env.journalctlPresent = true)
    (hparse : parse_range range env.now = .ok tr)
    (hfresh : sourcesDirFor env ∉ (mkdirParentsOk fs (archivesDirOf env)).dirs)
    (hdeg : (kernelCaptureOf env tr.since_arg).ok = false
      ∨ (ko = false ∧ (systemCaptureOf env tr.since_arg).ok = false)) :
    ∃ res fsOut, push env fs range ko v = (.ok res, fsOut)
      ∧ res.warnings ≠ []
      ∧ (res.session.report_path,
          writeReportText ("kernicle".data) v tr.range_input
            (sinceIsoStr tr.since_utc) res.mapping res.warnings) ∈ fsOut.files
      ∧ (res.session.manifest_path,
          writeManifestText ("kernicle".data) v tr.range_input
            (sinceIsoStr tr.since_utc) ko res.mapping res.warnings [])
          ∈ fsOut.files
      ∧ (res.session.sources_dir ++ ["journalctl-kernel.log".data],
          (kernelCaptureOf env tr.since_arg).stdout) ∈ fsOut.files
      ∧ (ko = false →
          (res.session.sources_dir ++ ["journalctl-system.log".data],
            (systemCaptureOf env tr.since_arg).stdout) ∈ fsOut.files)
      ∧ reportLines ("kernicle".data) v tr.range_input
            (sinceIsoStr tr.since_utc) res.mapping res.warnings
          = reportLines ("kernicle".data) v tr.range_input
              (sinceIsoStr tr.since_utc) res.mapping []
            ++ ([[], "warnings:".data]
                ++ res.warnings.map (fun x => "  - ".data ++ x)
                ++ [[], "permissions_hint:".data, permHint1, permHint2])
      ∧ ("warnings:".data) ∉ reportLines ("kernicle".data) v tr.range_input
          (sinceIsoStr tr.since_utc) res.mapping []
      ∧ ("permissions_hint:".data) ∉ reportLines ("kernicle".data) v
          tr.range_input (sinceIsoStr tr.since_utc) res.mapping [] := by
  have hne1 : sourcesDirFor env ++ ["journalctl-kernel.log".data]
      ≠ sourcesDirFor env ++ ["journalctl-system.log".data] := by
    simp [List.append_right_inj]
  have hne2 : sourcesDirFor env ++ ["journalctl-kernel.log".data]
      ≠ reportPathFor env := by
    simp [sourcesDirFor, reportPathFor, List.append_assoc]
  have hne3 : sourcesDirFor env ++ ["journalctl-kernel.log".data]
      ≠ manifestPathFor env := by
    simp [sourcesDirFor, manifestPathFor, List.append_assoc]
  have hne4 : sourcesDirFor env ++ ["journalctl-system.log".data]
      ≠ reportPathFor env := by
    simp [sourcesDirFor, reportPathFor, List.append_assoc]
  have hne5 : sourcesDirFor env ++ ["journalctl-system.log".data]
      ≠ manifestPathFor env := by
    simp [sourcesDirFor, manifestPathFor, List.append_assoc]
  have hne6 : (reportPathFor env : FsPath)
      ≠ manifestPathFor env := by
    simp [reportPathFor, manifestPathFor, List.append_right_inj]
  cases ko with
  | true =>
    have hk : (kernelCaptureOf env tr.since_arg).ok = false := by
      rcases hdeg with h | ⟨h, _⟩
      · exact h
      · cases h
    have hpush : push env fs range true v
        = pushWriteArtifacts
            (mkdirParentsOk (mkdirParentsOk fs (archivesDirOf env))
              (sourcesDirFor env))
            { session_dir := sessionDirFor env
              sources_dir := sourcesDirFor env
              report_path := reportPathFor env
              manifest_path := manifestPathFor env }
            tr (sinceIsoStr tr.since_utc) (kernelCaptureOf env tr.since_arg)
            none true v := by
      unfold push
      rw [hplat]
      simp only [Bool.not_true, Bool.false_eq_true, if_false, hparse]
      rw [create_session_success _ _ _ hfresh]
      rw [capture_kernel_eq env _ hjc]
      rfl
    obtain ⟨res, fsOut, hart, hsess, hwarn, hmap, hkm, _, hrep, hman⟩ :=
      pushWriteArtifacts_spec
        (mkdirParentsOk (mkdirParentsOk fs (archivesDirOf env))
          (sourcesDirFor env))
        { session_dir := sessionDirFor env
          sources_dir := sourcesDirFor env
          report_path := reportPathFor env
          manifest_path := manifestPathFor env }
        tr (sinceIsoStr tr.since_utc) (kernelCaptureOf env tr.since_arg)
        none true v hne1 hne2 hne3 hne4 hne5 hne6
    have hwne : res.warnings ≠ [] := by
      rw [hwarn, hk]
      simp
    refine ⟨res, fsOut, hpush.trans hart, hwne, ?_, ?_, ?_, ?_, ?_, ?_, ?_⟩
    · rw [hsess]; exact hrep
    · rw [hsess]; exact hman
    · rw [hsess]; exact hkm
    · intro h; cases h
    · exact reportLines_with_warnings _ _ _ _ _ hwne
    · exact (reportLines_no_section v tr.range_input
        (sinceIsoStr tr.since_utc) res.mapping).1
    · exact (reportLines_no_section v tr.range_input
        (sinceIsoStr tr.since_utc) res.mapping).2
  | false =>
    have hpush : push env fs range false v
        = pushWriteArtifacts
            (mkdirParentsOk (mkdirParentsOk fs (archivesDirOf env))
              (sourcesDirFor env))
            { session_dir := sessionDirFor env
              sources_dir := sourcesDirFor env
              report_path := reportPathFor env
              manifest_path := manifestPathFor env }
            tr (sinceIsoStr tr.since_utc) (kernelCaptureOf env tr.since_arg)
            (some (systemCaptureOf env tr.since_arg)) false v := by
      unfold push
      rw [hplat]
      simp only [Bool.not_true, Bool.false_eq_true, if_false, hparse]
      rw [create_session_success _ _ _ hfresh]
      rw [capture_kernel_eq env _ hjc]
      rw [capture_system_eq env _ hjc]
      rfl
    obtain ⟨res, fsOut, hart, hsess, hwarn, hmap, hkm, hsm, hrep, hman⟩ :=
      pushWriteArtifacts_spec
        (mkdirParentsOk (mkdirParentsOk fs (archivesDirOf env))
          (sourcesDirFor env))
        { session_dir := sessionDirFor env
          sources_dir := sourcesDirFor env
          report_path := reportPathFor env
          manifest_path := manifestPathFor env }
        tr (sinceIsoStr tr.since_utc) (kernelCaptureOf env tr.since_arg)
        (some (systemCaptureOf env tr.since_arg)) false v
        hne1 hne2 hne3 hne4 hne5 hne6
    have hwne : res.warnings ≠ [] := by
      rw [hwarn]
      dsimp only
      rcases hdeg with h | ⟨_, h⟩ <;> rw [h] <;> simp
    refine ⟨res, fsOut, hpush.trans hart, hwne, ?_, ?_, ?_, ?_, ?_, ?_, ?_⟩
    · rw [hsess]; exact hrep
    · rw [hsess]; exact hman
    · rw [hsess]; exact hkm
    · intro _; rw [hsess]; exact hsm
    · exact reportLines_with_warnings _ _ _ _ _ hwne
    · exact (reportLines_no_section v tr.range_input
        (sinceIsoStr tr.since_utc) res.mapping).1
    · exact (reportLines_no_section v tr.range_input
        (sinceIsoStr tr.since_utc) res.mapping).2


/-- Concrete resolved range for the C4 witness. -/
def trFix : TimeRange :=
  { range_input := "last:5m".data
    since_utc := utcInstant 2025 12 30 11 55 0
    since_arg := "2025-12-30 11:55:00 UTC".data }

/-- C4 witness: a kernel-only run whose kernel capture exits 1. -/
theorem c4_witness :
    ∃ res fsOut,
      push envDegraded fsEmpty ("last:5m".data) true ("0.1.0".data)
          = (.ok res, fsOut)
        ∧ res.warnings ≠ []
        ∧ (res.session.report_path,
            writeReportText ("kernicle".data) ("0.1.0".data) trFix.range_input
              (sinceIsoStr trFix.since_utc) res.mapping res.warnings)
            ∈ fsOut.files
        ∧ (res.session.manifest_path,
            writeManifestText ("kernicle".data) ("0.1.0".data)
              trFix.range_input (sinceIsoStr trFix.since_utc) true
              res.mapping res.warnings []) ∈ fsOut.files
        ∧ (res.session.sources_dir ++ ["journalctl-kernel.log".data],
            (kernelCaptureOf envDegraded trFix.since_arg).stdout)
            ∈ fsOut.files
        ∧ (true = false →
            (res.session.sources_dir ++ ["journalctl-system.log".data],
              (systemCaptureOf envDegraded trFix.since_arg).stdout)
              ∈ fsOut.files)
        ∧ reportLines ("kernicle".data) ("0.1.0".data) trFix.range_input
              (sinceIsoStr trFix.since_utc) res.mapping res.warnings
            = reportLines ("kernicle".data) ("0.1.0".data) trFix.range_input
                (sinceIsoStr trFix.since_utc) res.mapping []
              ++ ([[], "warnings:".data]
                  ++ res.warnings.map (fun x => "  - ".data ++ x)
                  ++ [[], "permissions_hint:".data, permHint1, permHint2])
        ∧ ("warnings:".data) ∉ reportLines ("kernicle".data) ("0.1.0".data)
            trFix.range_input (sinceIsoStr trFix.since_utc) res.mapping []
        ∧ ("permissions_hint:".data) ∉ reportLines ("kernicle".data)
            ("0.1.0".data) trFix.range_input (sinceIsoStr trFix.since_utc)
            res.mapping [] :=
  c4_degraded_run envDegraded fsEmpty ("last:5m".data) true ("0.1.0".data)
    trFix (by rfl) (by rfl) (by decide) (by decide) (Or.inl (by decide))

/-! ### C10 -/

theorem dropWhile_dropWhile (p : Char → Bool) (l : List Char) :
    (l.dropWhile p).dropWhile p = l.dropWhile p := by
  induction l with
  | nil => rfl
  | cons c t ih =>
    by_cases h : p c
    · simp only [List.dropWhile_cons, h, if_true]
      exact ih
    · simp [List.dropWhile_cons, h]

theorem strip_nil : strip [] = [] := rfl

/-- `str.strip` is idempotent. -/
theorem strip_idempotent (s : List Char) : strip (strip s) = strip s := by
  unfold strip
  set a := s.dropWhile isPySpace with ha
  set b := (a.reverse.dropWhile isPySpace).reverse with hb
  have hbrev : b.reverse.dropWhile isPySpace = b.reverse := by
    rw [hb, List.reverse_reverse]
    exact dropWhile_dropWhile _ _
  have hlb : b.dropWhile isPySpace = b := by
    rcases hcons : b with _ | ⟨c, t⟩
    · rfl
    · have hpre : b <+: a := by
        have hsuf : b.reverse <:+ a.reverse := by
          rw [hb, List.reverse_reverse]
          exact List.dropWhile_suffix _
        have := List.reverse_prefix.mpr hsuf
        simpa using this
      have hheadA : ∃ t2, a = c :: t2 := by
        rcases hpre with ⟨t1, hpre⟩
        exact ⟨t ++ t1, by rw [← hpre, hcons]; simp⟩
      rcases hheadA with ⟨t2, ht2⟩
      have hc : isPySpace c = false := by
        have := dropWhile_dropWhile isPySpace s
        rw [← ha, ht2] at this
        by_cases hpc : isPySpace c
        · rw [List.dropWhile_cons, if_pos hpc] at this
          have hlen := congrArg List.length this
          have hle := (List.dropWhile_suffix (l := t2) isPySpace).length_le
          simp at hlen
          omega
        · simpa using hpc
      rw [List.dropWhile_cons, hc]
      simp
  rw [hlb, hbrev, List.reverse_reverse]

/-- Helper: the stored `range_input` of a successful parse is the stripped
input. -/
theorem parse_range_input_eq (s : List Char) (now : Int) (tr : TimeRange)
    (h : parse_range s now = .ok tr) : tr.range_input = strip s := by
  unfold parse_range at h
  split at h
  · cases h
  · dsimp only at h
    split at h
    · next ds u _ =>
        split at h
        · cases h
        · cases h
          rfl
    · split at h
      · cases h
      · split at h
        · cases h
        · cases h
          rfl

/-- C10: `parse_range` accepts surrounded whitespace; parsing a spec and
parsing its stripped form at the same `now` give identical results (both in
the error and the success case), and the `range_input` stored on success is
the whitespace-stripped form of the caller's input. -/
theorem c10_whitespace_stripping (s : List Char) (now : Int) :
    parse_range s now = parse_range (strip s) now
      ∧ (∀ tr : TimeRange, parse_range s now = .ok tr →
          tr.range_input = strip s) := by
  constructor
  · by_cases hs : strip s = []
    · have h1 : parse_range s now = .error msgEmpty := by
        unfold parse_range
        rw [if_pos (Or.inr hs)]
      have h2 : parse_range (strip s) now = .error msgEmpty := by
        unfold parse_range
        rw [if_pos (Or.inl hs)]
      rw [h1, h2]
    · have hns : s ≠ [] := fun he => hs (by rw [he, strip_nil])
      unfold parse_range
      rw [if_neg (by push_neg; exact ⟨hns, hs⟩)]
      rw [if_neg (by
        push_neg
        refine ⟨hs, ?_⟩
        rw [strip_idempotent]
        exact hs)]
      rw [strip_idempotent]
  · exact fun tr h => parse_range_input_eq s now tr h

/-! ### C1 -/

/-- C10 witness. -/
theorem c10_witness :
    parse_range ("  last:5m ".data) (utcInstant 2025 12 30 12 0 0)
        = parse_range (strip ("  last:5m ".data)) (utcInstant 2025 12 30 12 0 0)
      ∧ trFix.range_input = strip ("  last:5m ".data) :=
  ⟨(c10_whitespace_stripping ("  last:5m ".data)
      (utcInstant 2025 12 30 12 0 0)).1,
   (c10_whitespace_stripping ("  last:5m ".data)
      (utcInstant 2025 12 30 12 0 0)).2 trFix (by decide)⟩

theorem splitLast_append (xs : List Char) (u : Char) :
    splitLast (xs ++ [u]) = some (xs, u) := by
  unfold splitLast
  rw [List.reverse_append]
  simp

theorem natToDigitsAux_ne_nil (fuel n : Nat) :
    natToDigitsAux (fuel + 1) n ≠ [] := by
  unfold natToDigitsAux
  by_cases h : n < 10
  · simp [h]
  · simp [h]

theorem natToDigits_all_digits (n : Nat) :
    (natToDigits n).all isAsciiDigit = true := by
  rw [List.all_eq_true]
  intro c hc
  have := natToDigitsAux_digits _ _ c hc
  simp only [isAsciiDigit, Bool.and_eq_true, decide_eq_true_iff]
  omega

theorem digitsToNat_append_digit (xs : List Char) (c : Char) :
    digitsToNat (xs ++ [c]) = digitsToNat xs * 10 + (c.toNat - 48) := by
  unfold digitsToNat
  rw [List.foldl_append]
  rfl

theorem digitsToNat_natToDigitsAux :
    ∀ fuel n : Nat, n ≤ fuel → digitsToNat (natToDigitsAux fuel n) = n := by
  intro fuel
  induction fuel with
  | zero =>
    intro n hn
    have : n = 0 := by omega
    subst this
    rfl
  | succ fuel ih =>
    intro n hn
    unfold natToDigitsAux
    by_cases h : n < 10
    · rw [if_pos h]
      show digitsToNat ([] ++ [digitChar n]) = n
      rw [digitsToNat_append_digit, digitChar_toNat]
      unfold digitsToNat
      simp
      omega
    · rw [if_neg h]
      rw [digitsToNat_append_digit, digitChar_toNat]
      rw [ih (n / 10) (by omega)]
      omega

theorem digitsToNat_natToDigits (n : Nat) :
    digitsToNat (natToDigits n) = n :=
  digitsToNat_natToDigitsAux (n + 1) n (by omega)

/-- A string with non-whitespace first and last characters strips to
itself. -/
theorem strip_eq_self_of_ends (c u : Char) (mid : List Char)
    (hc : isPySpace c = false) (hu : isPySpace u = false) :
    strip (c :: (mid ++ [u])) = c :: (mid ++ [u]) := by
  unfold strip
  rw [List.dropWhile_cons, hc]
  simp only [Bool.false_eq_true, if_false]
  rw [show (c :: (mid ++ [u])).reverse = u :: (c :: mid).reverse by simp]
  rw [List.dropWhile_cons, hu]
  simp

theorem unitChar_not_space (u : Char) (hu : isUnitChar u = true) :
    isPySpace u = false := by
  simp only [isUnitChar, Bool.or_eq_true, decide_eq_true_iff] at hu
  rcases hu with ((((((h | h) | h) | h) | h) | h) | h) | h <;> subst h <;> rfl

/-- The relative regex accepts `last:<digits><unit>`. -/
theorem matchRel_canonical (n : Nat) (u : Char) (hu : isUnitChar u = true) :
    matchRel ('l' :: 'a' :: 's' :: 't' :: ':' :: (natToDigits n ++ [u]))
      = some (natToDigits n, u) := by
  have hne : (natToDigits n).isEmpty = false := by
    rcases h : natToDigits n with _ | ⟨c, t⟩
    · exact absurd h (natToDigitsAux_ne_nil n n)
    · rfl
  unfold matchRel
  dsimp only
  rw [if_pos (by decide)]
  rw [splitLast_append]
  dsimp only
  rw [if_pos (by simp [hne, natToDigits_all_digits, hu])]

/-- C1: for every positive `n` and unit character in `[smhd]`
(case-insensitive), `parse_range` on `last:<n><unit>` returns a `TimeRange`
whose `since_utc` is exactly `now` minus `n` seconds/minutes/hours/days
(no rounding drift), for every timezone-aware `now`; in particular
`resolve("last:5m")` at 2025-12-30T12:00:00Z yields
since_utc = 2025-12-30T11:55:00Z and
since_query = "2025-12-30 11:55:00 UTC". -/
theorem c1_relative_exact (n : Nat) (u : Char) (now : Int)
    (hn : 0 < n) (hu : isUnitChar u = true) :
    parse_range ('l' :: 'a' :: 's' :: 't' :: ':' :: (natToDigits n ++ [u])) now
        = .ok { range_input := 'l' :: 'a' :: 's' :: 't' :: ':'
                  :: (natToDigits n ++ [u])
                since_utc :=
                  now - (n * unitSeconds (lowerChar u) : Nat) * 1000000
                since_arg := formatJournalctlSinceArg
                  (now - (n * unitSeconds (lowerChar u) : Nat) * 1000000) }
      ∧ parse_range ("last:5m".data) (utcInstant 2025 12 30 12 0 0)
          = .ok { range_input := "last:5m".data
                  since_utc := utcInstant 2025 12 30 11 55 0
                  since_arg := "2025-12-30 11:55:00 UTC".data } := by
  constructor
  · have hstrip :
        strip ('l' :: 'a' :: 's' :: 't' :: ':' :: (natToDigits n ++ [u]))
          = 'l' :: 'a' :: 's' :: 't' :: ':' :: (natToDigits n ++ [u]) := by
      have h := strip_eq_self_of_ends 'l' u
        ('a' :: 's' :: 't' :: ':' :: natToDigits n) rfl
        (unitChar_not_space u hu)
      simpa using h
    unfold parse_range
    rw [if_neg (by simp [hstrip])]
    dsimp only
    rw [hstrip, matchRel_canonical n u hu]
    dsimp only
    rw [digitsToNat_natToDigits]
    rw [if_neg (by omega)]
  · decide

/-- C1 witness. -/
theorem c1_witness :
    parse_range ('l' :: 'a' :: 's' :: 't' :: ':' :: (natToDigits 5 ++ ['m']))
        (utcInstant 2025 12 30 12 0 0)
        = .ok { range_input := 'l' :: 'a' :: 's' :: 't' :: ':'
                  :: (natToDigits 5 ++ ['m'])
                since_utc := utcInstant 2025 12 30 12 0 0
                  - (5 * unitSeconds (lowerChar 'm') : Nat) * 1000000
                since_arg := formatJournalctlSinceArg
                  (utcInstant 2025 12 30 12 0 0
                    - (5 * unitSeconds (lowerChar 'm') : Nat) * 1000000) }
      ∧ parse_range ("last:5m".data) (utcInstant 2025 12 30 12 0 0)
          = .ok { range_input := "last:5m".data
                  since_utc := utcInstant 2025 12 30 11 55 0
                  since_arg := "2025-12-30 11:55:00 UTC".data } :=
  c1_relative_exact 5 'm' (utcInstant 2025 12 30 12 0 0) (by decide) (by decide)

/-! ### C2 -/

theorem fromisoformat_head_digit (v : List Char) (dt : PyDatetime)
    (h : fromisoformat v = some dt) :
    ∃ c rest, v = c :: rest ∧ isAsciiDigit c = true := by
  unfold fromisoformat at h
  split at h
  · next y1 y2 y3 y4 m1 m2 d1 d2 rest =>
      refine ⟨y1, _, rfl, ?_⟩
      split at h
      · next hall => exact List.all_eq_true.mp hall y1 (by simp)
      · cases h
  · cases h

theorem zfix_head_digit (v : List Char) (dt : PyDatetime)
    (h : fromisoformat (zfix v) = some dt) :
    ∃ c rest, v = c :: rest ∧ isAsciiDigit c = true := by
  obtain ⟨c, rest2, hv, hc⟩ := fromisoformat_head_digit (zfix v) dt h
  rcases v with _ | ⟨a, t⟩
  · exact absurd hv (by simp [zfix])
  · unfold zfix at hv
    split at hv
    · rcases t with _ | ⟨b, t2⟩
      · exfalso
        simp at hv
        have : c = '+' := hv.1.symm
        rw [this] at hc
        cases hc
      · rw [List.dropLast_cons₂, List.cons_append] at hv
        have hac : a = c := (List.cons.injEq _ _ _ _).mp hv |>.1
        exact ⟨a, b :: t2, rfl, hac ▸ hc⟩
    · have hac : a = c := (List.cons.injEq _ _ _ _).mp hv |>.1
      exact ⟨a, t, rfl, hac ▸ hc⟩

theorem digit_not_l (c : Char) (hc : isAsciiDigit c = true) :
    ciEq c 'l' = false := by
  simp only [isAsciiDigit, Bool.and_eq_true, decide_eq_true_iff] at hc
  have hlc : lowerChar c = c := by
    unfold lowerChar
    rw [if_neg (by simp only [Bool.and_eq_true, decide_eq_true_iff]; omega)]
  unfold ciEq
  rw [hlc, show lowerChar 'l' = 'l' from rfl]
  simp only [decide_eq_false_iff_not]
  intro he
  have h108 : c.toNat = 108 := by rw [he]; rfl
  omega

theorem matchRel_none_of_head (c : Char) (rest : List Char)
    (h : ciEq c 'l' = false) : matchRel (c :: rest) = none := by
  rcases rest with _ | ⟨c2, rest⟩
  · rfl
  rcases rest with _ | ⟨c3, rest⟩
  · rfl
  rcases rest with _ | ⟨c4, rest⟩
  · rfl
  rcases rest with _ | ⟨c5, rest⟩
  · rfl
  unfold matchRel
  dsimp only
  rw [if_neg (by simp [h])]

/-- C2: a (modelled) ISO-8601 absolute input without an explicit offset is
rejected with the timezone error; one with an explicit offset (a trailing
`Z` having been rewritten to `+00:00` beforehand) resolves to that instant
normalized to UTC; in particular `resolve("2025-12-30T12:00:00Z")` yields
since_utc = 2025-12-30T12:00:00Z for every `now`. -/
theorem c2_absolute_iso (s : List Char) (now : Int) (dt : PyDatetime)
    (hfrom : fromisoformat (zfix (strip s)) = some dt) :
    (dt.off = none → parse_range s now = .error msgNaive)
      ∧ (∀ o : Int, dt.off = some o → parse_range s now
          = .ok { range_input := strip s
                  since_utc := dtInstant dt
                  since_arg := formatJournalctlSinceArg (dtInstant dt) })
      ∧ parse_range ("2025-12-30T12:00:00Z".data) now
          = .ok { range_input := "2025-12-30T12:00:00Z".data
                  since_utc := utcInstant 2025 12 30 12 0 0
                  since_arg := "2025-12-30 12:00:00 UTC".data } := by
  obtain ⟨c, rest, hv, hc⟩ := zfix_head_digit (strip s) dt hfrom
  have hmr : matchRel (strip s) = none := by
    rw [hv]
    exact matchRel_none_of_head c rest (digit_not_l c hc)
  have hsne : strip s ≠ [] := by rw [hv]; simp
  have hne : ¬(s = [] ∨ strip s = []) := by
    push_neg
    refine ⟨?_, hsne⟩
    intro he
    exact hsne (by rw [he, strip_nil])
  refine ⟨?_, ?_, by rfl⟩
  · intro hoff
    unfold parse_range
    rw [if_neg hne]
    dsimp only
    rw [hmr]
    dsimp only
    rw [hfrom]
    dsimp only
    rw [hoff]
  · intro o hoff
    unfold parse_range
    rw [if_neg hne]
    dsimp only
    rw [hmr]
    dsimp only
    rw [hfrom]
    dsimp only
    rw [hoff]

/-- C2 witness. -/
theorem c2_witness :
    parse_range ("2025-12-30T12:00:00".data) 0 = .error msgNaive
      ∧ parse_range ("2025-12-30T12:00:00+05:30".data) 0
          = .ok { range_input := strip ("2025-12-30T12:00:00+05:30".data)
                  since_utc := dtInstant ⟨2025, 12, 30, 12, 0, 0, 0, some 330⟩
                  since_arg := formatJournalctlSinceArg
                    (dtInstant ⟨2025, 12, 30, 12, 0, 0, 0, some 330⟩) } :=
  ⟨(c2_absolute_iso ("2025-12-30T12:00:00".data) 0
      ⟨2025, 12, 30, 12, 0, 0, 0, none⟩ (by decide)).1 rfl,
   (c2_absolute_iso ("2025-12-30T12:00:00+05:30".data) 0
      ⟨2025, 12, 30, 12, 0, 0, 0, some 330⟩ (by decide)).2.1 330 rfl⟩

/-! ### C6 -/

/-- Both grammars render `since_arg` from `since_utc` with the same
formatter. -/
theorem parse_range_since_arg_eq (s : List Char) (now : Int) (tr : TimeRange)
    (h : parse_range s now = .ok tr) :
    tr.since_arg = formatJournalctlSinceArg tr.since_utc := by
  unfold parse_range at h
  split at h
  · cases h
  · dsimp only at h
    split at h
    · next ds u _ =>
        split at h
        · cases h
        · cases h
          rfl
    · split at h
      · cases h
      · split at h
        · cases h
        · cases h
          rfl

/-- The era-based day-to-date conversion always yields a month in 1..12 and
a day in 1..31. -/
theorem civilFromDays_bounds (z : Int) :
    1 ≤ (civilFromDays z).month ∧ (civilFromDays z).month ≤ 12
      ∧ 1 ≤ (civilFromDays z).day ∧ (civilFromDays z).day ≤ 31 := by
  unfold civilFromDays
  dsimp only
  have h1 : (z + 719468).emod 146097 < 146097 :=
    Int.emod_lt_of_pos _ (by omega)
  have h2 : 0 ≤ (z + 719468).emod 146097 := Int.emod_nonneg _ (by omega)
  have hdoe : ((z + 719468).emod 146097).toNat < 146097 := by omega
  split <;> omega

theorem natToDigitsAux_length_le :
    ∀ fuel n k : Nat, n < 10 ^ k → 0 < k →
      (natToDigitsAux fuel n).length ≤ k := by
  intro fuel
  induction fuel with
  | zero =>
    intro n k _ _
    simp [natToDigitsAux]
  | succ fuel ih =>
    intro n k hn hk
    unfold natToDigitsAux
    by_cases h : n < 10
    · rw [if_pos h]
      simpa using hk
    · rw [if_neg h]
      rw [List.length_append]
      have hk1 : 0 < k - 1 := by
        by_contra hc
        have hke : k = 1 := by omega
        rw [hke, pow_one] at hn
        omega
      have hpow : 10 ^ k = 10 * 10 ^ (k - 1) := by
        conv_lhs => rw [show k = (k - 1) + 1 by omega]
        rw [pow_succ]
        ring
      have hdiv : n / 10 < 10 ^ (k - 1) := by
        rw [hpow] at hn
        omega
      have hlen := ih (n / 10) (k - 1) hdiv hk1
      simp only [List.length_singleton]
      omega

theorem padNum_length (w n : Nat) (h : n < 10 ^ w) (hw : 0 < w) :
    (padNum w n).length = w := by
  unfold padNum
  rw [List.length_append, List.length_replicate]
  have := natToDigitsAux_length_le (n + 1) n w h hw
  unfold natToDigits at *
  omega

theorem padNum_all_ascii (w n : Nat) :
    ∀ c ∈ padNum w n, isAsciiDigit c = true := by
  intro c hc
  have := padNum_digits w n c hc
  simp only [isAsciiDigit, Bool.and_eq_true, decide_eq_true_iff]
  omega

theorem natToDigits_all_ascii (n : Nat) :
    ∀ c ∈ natToDigits n, isAsciiDigit c = true := by
  intro c hc
  have := natToDigitsAux_digits _ _ c hc
  simp only [isAsciiDigit, Bool.and_eq_true, decide_eq_true_iff]
  omega

theorem natToDigitsAux_length_ge :
    ∀ fuel n k : Nat, n ≤ fuel → 10 ^ k ≤ n →
      k + 1 ≤ (natToDigitsAux fuel n).length := by
  intro fuel
  induction fuel with
  | zero =>
    intro n k hn hk
    have hp : 0 < 10 ^ k := pow_pos (by omega) k
    omega
  | succ fuel ih =>
    intro n k hn hk
    unfold natToDigitsAux
    by_cases h : n < 10
    · rw [if_pos h]
      rcases k with _ | k
      · simp
      · exfalso
        have h10 : 10 ^ 1 ≤ 10 ^ (k + 1) :=
          Nat.pow_le_pow_right (by omega) (by omega)
        rw [pow_one] at h10
        omega
    · rw [if_neg h]
      rw [List.length_append]
      simp only [List.length_singleton]
      rcases k with _ | k
      · omega
      · have hdiv : 10 ^ k ≤ n / 10 := by
          rw [Nat.le_div_iff_mul_le (by omega)]
          calc 10 ^ k * 10 = 10 ^ (k + 1) := by rw [pow_succ]
          _ ≤ n := hk
        have := ih (n / 10) k (by omega) hdiv
        omega

/-- The year rendering of `%Y` has exactly four characters iff the year has
four decimal digits. -/
theorem natToDigits_length_four (n : Nat) (h1 : 1000 ≤ n) (h2 : n ≤ 9999) :
    (natToDigits n).length = 4 := by
  have hle := natToDigitsAux_length_le (n + 1) n 4 (by omega) (by omega)
  have hge := natToDigitsAux_length_ge (n + 1) n 3 (by omega) (by omega)
  unfold natToDigits at *
  omega

/-- C6 counterexample: the input `0005-01-01T00:00:00Z` is accepted by
`parse_range`, but `strftime` renders its year without padding, so the
resulting `since_query` is `5-01-01 00:00:00 UTC`, which does not match the
fixed `YYYY-MM-DD HH:MM:SS UTC` pattern (no decomposition with a four-digit
year component exists: the string is three characters short). -/
theorem c6_counterexample :
    parse_range ("0005-01-01T00:00:00Z".data) 0
        = .ok { range_input := "0005-01-01T00:00:00Z".data
                since_utc := utcInstant 5 1 1 0 0 0
                since_arg := "5-01-01 00:00:00 UTC".data }
      ∧ ¬∃ yc moc dc hc mic sc : List Char,
          ("5-01-01 00:00:00 UTC".data) = yc ++ '-' :: moc ++ '-' :: dc
              ++ ' ' :: hc ++ ':' :: mic ++ ':' :: sc
              ++ ' ' :: 'U' :: 'T' :: 'C' :: []
            ∧ yc.length = 4 ∧ moc.length = 2 ∧ dc.length = 2
            ∧ hc.length = 2 ∧ mic.length = 2 ∧ sc.length = 2
            ∧ (∀ c ∈ yc ++ moc ++ dc ++ hc ++ mic ++ sc,
                isAsciiDigit c = true) := by
  constructor
  · decide
  · rintro ⟨yc, moc, dc, hc, mic, sc, heq, h1, h2, h3, h4, h5, h6, -⟩
    have hlen := congrArg List.length heq
    simp only [List.length_append, List.length_cons] at hlen
    rw [h1, h2, h3, h4, h5, h6] at hlen
    have h20 : ("5-01-01 00:00:00 UTC".data).length = 20 := by decide
    omega

/-- C6 amended: for every input accepted by `parse_range` (by either
grammar), `since_query` is the rendering of `since_utc` by the fixed
`strftime` formatter; whenever the resolved year has four decimal digits
(1000..9999 — every date this tool's users capture logs for), it matches
the pattern `YYYY-MM-DD HH:MM:SS UTC`: four digits, dash, two digits, dash,
two digits, space, two digits, colon, two digits, colon, two digits, space,
literal `UTC`. For years below 1000 the year field is rendered unpadded by
`strftime("%Y")` on Linux, and the pattern does not hold. -/
theorem c6_since_query_pattern (s : List Char) (now : Int) (tr : TimeRange)
    (h : parse_range s now = .ok tr)
    (hy1 : 1000 ≤ (instantFields tr.since_utc).1.year)
    (hy2 : (instantFields tr.since_utc).1.year ≤ 9999) :
    tr.since_arg = formatJournalctlSinceArg tr.since_utc
      ∧ ∃ yc moc dc hc mic sc : List Char,
          tr.since_arg = yc ++ '-' :: moc ++ '-' :: dc ++ ' ' :: hc
              ++ ':' :: mic ++ ':' :: sc ++ ' ' :: 'U' :: 'T' :: 'C' :: []
            ∧ yc.length = 4 ∧ moc.length = 2 ∧ dc.length = 2
            ∧ hc.length = 2 ∧ mic.length = 2 ∧ sc.length = 2
            ∧ (∀ c ∈ yc ++ moc ++ dc ++ hc ++ mic ++ sc,
                isAsciiDigit c = true) := by
  have harg := parse_range_since_arg_eq s now tr h
  refine ⟨harg, ?_⟩
  set t := tr.since_utc
  have hsod1 : 0 ≤ (t.ediv 1000000).emod 86400 := Int.emod_nonneg _ (by omega)
  have hsod2 : (t.ediv 1000000).emod 86400 < 86400 :=
    Int.emod_lt_of_pos _ (by omega)
  have hsod : ((t.ediv 1000000).emod 86400).toNat < 86400 := by omega
  have hmo := civilFromDays_bounds ((t.ediv 1000000).ediv 86400)
  refine ⟨natToDigits (instantFields t).1.year.toNat,
    padNum 2 (instantFields t).1.month, padNum 2 (instantFields t).1.day,
    padNum 2 ((instantFields t).2.1 / 3600),
    padNum 2 ((instantFields t).2.1 % 3600 / 60),
    padNum 2 ((instantFields t).2.1 % 60), ?_, ?_, ?_, ?_, ?_, ?_, ?_, ?_⟩
  · rw [harg]
    rfl
  · exact natToDigits_length_four _ (by omega) (by omega)
  · refine padNum_length 2 _ ?_ (by omega)
    have : (instantFields t).1.month ≤ 12 := by
      simpa [instantFields] using hmo.2.1
    omega
  · refine padNum_length 2 _ ?_ (by omega)
    have : (instantFields t).1.day ≤ 31 := by
      simpa [instantFields] using hmo.2.2.2
    omega
  · refine padNum_length 2 _ ?_ (by omega)
    have : (instantFields t).2.1 < 86400 := by
      simpa [instantFields] using hsod
    omega
  · refine padNum_length 2 _ ?_ (by omega)
    have h60 : (instantFields t).2.1 % 3600 / 60 < 60 := by omega
    omega
  · refine padNum_length 2 _ ?_ (by omega)
    have h60 : (instantFields t).2.1 % 60 < 60 := by omega
    omega
  · intro c hcmem
    simp only [List.mem_append] at hcmem
    rcases hcmem with ((((h5 | h5) | h5) | h5) | h5) | h5
    · exact natToDigits_all_ascii _ c h5
    · exact padNum_all_ascii _ _ c h5
    · exact padNum_all_ascii _ _ c h5
    · exact padNum_all_ascii _ _ c h5
    · exact padNum_all_ascii _ _ c h5
    · exact padNum_all_ascii _ _ c h5

/-- C6 amended witness. -/
theorem c6_witness :
    trFix.since_arg = formatJournalctlSinceArg trFix.since_utc
      ∧ ∃ yc moc dc hc mic sc : List Char,
          trFix.since_arg = yc ++ '-' :: moc ++ '-' :: dc ++ ' ' :: hc
              ++ ':' :: mic ++ ':' :: sc ++ ' ' :: 'U' :: 'T' :: 'C' :: []
            ∧ yc.length = 4 ∧ moc.length = 2 ∧ dc.length = 2
            ∧ hc.length = 2 ∧ mic.length = 2 ∧ sc.length = 2
            ∧ (∀ c ∈ yc ++ moc ++ dc ++ hc ++ mic ++ sc,
                isAsciiDigit c = true) :=
  c6_since_query_pattern ("last:5m".data) (utcInstant 2025 12 30 12 0 0)
    trFix (by decide) (by decide) (by decide)

end Kernicle
